import Mathlib

/-!
# fw_printenv / fw_setenv: the command line tool of libubootenv

A development over `src/fw_printenv.c`.

* C strings are lists of `Char`, one element per `char`.  A list stands for the
  array a `char *` points at; the string it holds ends at the first NUL, or at
  the end of the list when there is none (the terminator then sits right after
  the list).
* `int` and `uint32_t` values are `Int` and `Nat`; the values that occur
  (month numbers, return codes of the library) stay far inside 32 bits.
* A run of `main` is described by the sequence of things it does that can be
  seen from outside (lines on stdout and stderr, calls into the library) and
  by the value it passes to `exit` or returns.
-/

namespace FwPrintenv

/-! ## C strings -/

/-- Value of `*p`: the first element of the array, NUL when the array is at its end. -/
def deref (p : List Char) : Char := p.headD '\x00'

/-- Libc `strlen`: number of characters before the first NUL. -/
def strlen : List Char → Nat
  | [] => 0
  | c :: s => if c = '\x00' then 0 else strlen s + 1

/-- String held in a character array: the characters before the first NUL. -/
def cstr : List Char → List Char
  | [] => []
  | c :: s => if c = '\x00' then [] else c :: cstr s

/-- Libc `strncmp`: compares at most `n` characters and stops behind a common NUL;
the result is the difference of the first pair of characters that differ. -/
def strncmp : List Char → List Char → Nat → Int
  | _, _, 0 => 0
  | s1, s2, n + 1 =>
    if deref s1 ≠ deref s2 then ((deref s1).toNat : Int) - ((deref s2).toNat : Int)
    else if deref s1 = '\x00' then 0
    else strncmp s1.tail s2.tail n

/-- Libc `strncpy(dst, src, n)`: the `n` characters it stores at `dst`, namely those of
`src` up to its NUL and NUL padding after that; no terminator is added when `src` is
`n` characters or longer. -/
def strncpy : List Char → Nat → List Char
  | _, 0 => []
  | src, n + 1 =>
    if deref src = '\x00' then List.replicate (n + 1) '\x00'
    else deref src :: strncpy src.tail n

/-- Libc `strcpy(dst, src)`: the characters it stores at `dst`, the whole string and
its terminator, however long the string is. -/
def strcpy (src : List Char) : List Char := cstr src ++ ['\x00']

/-- Libc `strncat(dst, src, n)`: the string left in `dst`, the old one followed by at
most `n` characters of `src`. -/
def strncat (dst src : List Char) (n : Nat) : List Char :=
  cstr dst ++ (cstr src).take n

/-- Buffer image after storing `bytes` at offset `off`.  The image lists the characters
stored so far from the start of the buffer on; every store of the program begins inside
or right behind the image. -/
def poke (buf : List Char) (off : Nat) (bytes : List Char) : List Char :=
  buf.take off ++ bytes ++ buf.drop (off + bytes.length)

/-- Conversion `%02d` of printf: decimal digits, padded with zeros to two places. -/
def fmt_02d (n : Nat) : List Char :=
  let digits := Nat.toDigits 10 n
  List.replicate (2 - digits.length) '0' ++ digits

/-- Call `snprintf(p, size, "-%02d-", month)`: the characters stored at `p`, at most
`size - 1` of the formatted text and a terminator. -/
def snprintf_month (size : Nat) (month : Nat) : List Char :=
  (['-'] ++ fmt_02d month ++ ['-']).take (size - 1) ++ ['\x00']

/-! ## Month_to_Int and English_to_ScientificDate (lines 43-93) -/

/-- Macro `MonChars`. -/
def MonChars : Nat := 3

/-- Macro `Months`. -/
def Months : Nat := 12

/-- Template `MonthNames` of `Month_to_Int`. -/
def MonthNames : List Char := "DecNovOctSepAugJulJunMayAprMarFebJan".toList

/-- Loop of `Month_to_Int`,
`while ((strncmp(Month, pMonths, MonChars) != 0) && (iMonth > 0)) { iMonth--; pMonths += MonChars; }`,
started with the given `pMonths` and `iMonth`.  The first component is `iMonth` when the
loop is left, the second counts how often the body ran.  With `iMonth = 0` the
condition fails whatever `strncmp` says. -/
def Month_to_Int_loop (Month : List Char) : List Char → Nat → Nat × Nat
  | _, 0 => (0, 0)
  | pMonths, iMonth + 1 =>
    if strncmp Month pMonths MonChars ≠ 0 then
      let r := Month_to_Int_loop Month (pMonths.drop MonChars) iMonth
      (r.1, r.2 + 1)
    else (iMonth + 1, 0)

/-- Function `Month_to_Int` (lines 43-57). -/
def Month_to_Int (Month : List Char) : Nat :=
  (Month_to_Int_loop Month MonthNames Months).1

/-- Function `English_to_ScientificDate` (lines 65-93).  The first component is the image
of the buffer `YYYY_MM_DD` after the call (stored characters, terminator included), the
second the value returned. -/
def English_to_ScientificDate (EnglishDate : List Char) : List Char × Nat :=
  let success := if strlen EnglishDate = 11 then Month_to_Int EnglishDate else 0
  if success ≠ 0 then
    let b1 := poke [] 0 (strncpy (EnglishDate.drop 7) 4)
    let b2 := poke b1 4 (snprintf_month 9 success)
    let b3 := poke b2 8 (strncpy (EnglishDate.drop 4) 2)
    let b4 := if deref (b3.drop 8) = ' ' then poke b3 8 ['0'] else b3
    let b5 := poke b4 10 ['\x00']
    (b5, success)
  else
    (poke [] 0 (strcpy EnglishDate), success)

/-- Month abbreviations as the claims name them: Jan = 1, ..., Dec = 12. -/
def month_abbrev : Nat → List Char
  | 1 => "Jan".toList | 2 => "Feb".toList | 3 => "Mar".toList | 4 => "Apr".toList
  | 5 => "May".toList | 6 => "Jun".toList | 7 => "Jul".toList | 8 => "Aug".toList
  | 9 => "Sep".toList | 10 => "Oct".toList | 11 => "Nov".toList | 12 => "Dec".toList
  | _ => []

/-! ## The library behind `libuboot.h` -/

/-- Functions of the environment library that `main` calls.  The library is not part of
this file, so it is a parameter: `σ` is whatever the context `ctx` holds, every call
returns its `int` result and the context it leaves behind.
`libuboot_get_env` only reads the context.  `libuboot_iterator` stands for the walk
`tmp = libuboot_iterator(ctx, tmp)` from `NULL` until it returns `NULL`, with
`libuboot_getname` and `libuboot_getvalue` applied to every entry met: it gives the
finite sequence of pairs the walk visits. -/
structure LibUboot (σ : Type) where
  libuboot_initialize : Int × σ
  libuboot_set_verbose : σ → σ
  libuboot_read_config : σ → String → Int × σ
  libuboot_open : σ → Int × σ
  libuboot_load_file : σ → String → Int × σ
  libuboot_iterator : σ → List (String × String)
  libuboot_get_env : σ → String → Option String
  libuboot_set_env : σ → String → Option String → Int × σ
  libuboot_env_store : σ → Int × σ

/-- Things a run does that can be seen from outside, in the order they happen: a
`fprintf` to stdout or stderr with the text written, or a call into the library with
its arguments and its result. -/
inductive Event where
  | stdout (text : String)
  | stderr (text : String)
  | libuboot_initialize (ret : Int)
  | libuboot_set_verbose
  | libuboot_read_config (fname : String) (ret : Int)
  | libuboot_open (ret : Int)
  | libuboot_load_file (fname : String) (ret : Int)
  | libuboot_get_env (name : String) (value : Option String)
  | libuboot_set_env (name : String) (value : Option String) (ret : Int)
  | libuboot_env_store (ret : Int)
  | libuboot_close
  | libuboot_exit
  deriving DecidableEq, Repr

/-- Result code of a library call that reports one. -/
def Event.ret : Event → Option Int
  | Event.libuboot_initialize r => some r
  | Event.libuboot_read_config _ r => some r
  | Event.libuboot_open r => some r
  | Event.libuboot_load_file _ r => some r
  | Event.libuboot_set_env _ _ r => some r
  | Event.libuboot_env_store r => some r
  | _ => none

/-- Text of a write to stdout. -/
def Event.stdoutText : Event → Option String
  | Event.stdout text => some text
  | _ => none

/-- Events of the part of `main` before the mode is looked at: calls that set the library
up and messages on stderr. -/
def Event.isSetup : Event → Bool
  | Event.stderr _ => true
  | Event.libuboot_initialize _ => true
  | Event.libuboot_set_verbose => true
  | Event.libuboot_read_config _ _ => true
  | Event.libuboot_open _ => true
  | Event.libuboot_load_file _ _ => true
  | _ => false

/-- Events before `libuboot_open`: calls that did not fail. -/
def Event.isEarly : Event → Prop
  | Event.libuboot_initialize r => 0 ≤ r
  | Event.libuboot_set_verbose => True
  | Event.libuboot_read_config _ r => 0 ≤ r
  | _ => False

/-- Events of the printenv branch. -/
def Event.isPrint : Event → Bool
  | Event.stdout _ => true
  | Event.libuboot_get_env _ _ => true
  | _ => false

/-- Events of lines 239-303, the two branches and the end of `main`. -/
def Event.isBody : Event → Bool
  | Event.libuboot_initialize _ => false
  | Event.libuboot_set_verbose => false
  | Event.libuboot_read_config _ _ => false
  | Event.libuboot_open _ => false
  | _ => true

/-- End of a run: what it did, and the value given to `exit` or returned by `main`. -/
structure Outcome where
  trace : List Event
  status : Int
  deriving DecidableEq, Repr

/-! ## Command line -/

/-- Results of `getopt_long` for the option string `"Vc:f:s:nhv"` and `long_options`:
the option character with its `optarg`; `unknown` is any other result (`'?'`). -/
inductive Opt where
  | c (optarg : String)
  | n
  | V
  | h
  | f (optarg : String)
  | s (optarg : String)
  | v
  | unknown
  deriving DecidableEq, Repr

/-- Locals of `main` that the option loop sets (`NULL` is `none`). -/
structure Flags where
  cfgfname : Option String
  defenvfile : Option String
  scriptfile : Option String
  noheader : Bool
  verbose : Bool
  deriving DecidableEq, Repr

/-- Initial values of these locals (lines 143-154). -/
def Flags.initial : Flags := ⟨none, none, none, false, false⟩

/-- What a run does at a call whose behaviour C leaves undefined: the text that reaches
stderr, and `none` when the call returns, or the status with which the run ends inside
the call. -/
structure Undefined where
  text : String
  ended : Option Int

/-- What the compiled program brings along: the values of `__DATE__` and `__TIME__`, and
what it does at line 223, `fprintf(stderr, "Configuration file %s not found ...")`,
whose `%s` has no argument; the behaviour of that call is undefined and may depend on
the file name and the result code at hand. -/
structure Build where
  DATE : String
  TIME : String
  line223 : String → Int → Undefined

/-- Input of a run: `argv[0]`, the successive results of `getopt_long`, the arguments
left from `optind` on, and the result of `getuid`. -/
structure Invocation where
  argv0 : String
  opts : List Opt
  args : List String
  uid : Nat

/-- Macro `VERSION` (the fallback of lines 20-22). -/
def VERSION : String := "0.1"

/-- Macro `PROGRAM_SET`. -/
def PROGRAM_SET : String := "fw_setenv"

/-- Macro `TXT_BUFF_LEN`. -/
def TXT_BUFF_LEN : Nat := 64

/-- Function `usage` (lines 96-136): the four or five `fprintf` calls. -/
def usage (b : Build) (program : String) (setprogram : Bool) : List Event :=
  let buffer := (English_to_ScientificDate b.DATE.toList).1
  let buffer := strncat buffer " ".toList (TXT_BUFF_LEN - strlen buffer)
  let buffer := strncat buffer b.TIME.toList (TXT_BUFF_LEN - strlen buffer)
  [ Event.stdout (program ++ " (Compiled " ++ String.mk buffer ++ ")\n"),
    Event.stdout ("Usage " ++ program ++ " [OPTION]\n"),
    Event.stdout (" -h, --help                       : print this help\n" ++
      " -c, --config <filename>          : configuration file (old fw_env.config)\n" ++
      " -f, --defenv <filename>          : default environment if no one found\n" ++
      " -V, --version                    : print version and exit\n" ++
      " -v, --verbose                    : add debugging information\n"),
    if !setprogram then
      Event.stdout " -n, --no-header                  : do not print variable name\n"
    else
      Event.stdout (" -s, --script <filename>          : read variables to be set from a script\n" ++
        "\n" ++
        "Script Syntax:\n" ++
        " key=value\n" ++
        " lines starting with '#' are treated as comment\n" ++
        " lines without '=' are ignored\n" ++
        "\n" ++
        "Script Example:\n" ++
        " netdev=eth0\n" ++
        " kernel_addr=400000\n" ++
        " foo=empty empty empty    empty empty empty\n" ++
        " bar\n" ++
        "\n") ]

/-- Lines 161-165: `progname` is what follows the last `'/'` of `argv[0]`, or all of
`argv[0]` when it has none. -/
def progname_of (argv0 : String) : String :=
  String.mk (argv0.toList.reverse.takeWhile (fun ch => ch ≠ '/')).reverse

/-- Option loop of `main` (lines 170-198) over the results of `getopt_long`: the flags
when the loop runs to its end, or the outcome of the `exit` it takes. -/
def parse_options (b : Build) (progname : String) (is_setenv : Bool) :
    List Opt → Flags → Except Outcome Flags
  | [], fl => Except.ok fl
  | Opt.c optarg :: rest, fl =>
    parse_options b progname is_setenv rest { fl with cfgfname := some optarg }
  | Opt.n :: rest, fl =>
    parse_options b progname is_setenv rest { fl with noheader := true }
  | Opt.V :: _, _ => Except.error ⟨[Event.stdout (VERSION ++ "\n")], 0⟩
  | Opt.h :: _, _ => Except.error ⟨usage b progname is_setenv, 0⟩
  | Opt.f optarg :: rest, fl =>
    parse_options b progname is_setenv rest { fl with defenvfile := some optarg }
  | Opt.s optarg :: rest, fl =>
    parse_options b progname is_setenv rest { fl with scriptfile := some optarg }
  | Opt.v :: rest, fl =>
    parse_options b progname is_setenv rest { fl with verbose := true }
  | Opt.unknown :: _, _ => Except.error ⟨[Event.stdout " Error: Unknown parameter\n"], 1⟩

/-! ## main (lines 140-304) -/

/-- Locals of `main` at line 239, once the environment is open, and the events so far. -/
structure Started (σ : Type) where
  is_setenv : Bool
  noheader : Bool
  scriptfile : Option String
  default_used : Bool
  ret : Int
  ctx : σ
  trace : List Event

/-- Lines 161-237 of `main`: program name, options, root check, `libuboot_initialize`,
`libuboot_read_config`, `libuboot_open` and the fallback to the default environment file.
Gives the outcome of the `exit` taken, or the locals at line 239.  After a failing
`libuboot_read_config` the run is in the hands of the undefined call of line 223:
`exit(ret)` is reached only if that call returns. -/
def startup {σ : Type} (lib : LibUboot σ) (b : Build) (inv : Invocation) :
    Except Outcome (Started σ) :=
  let progname := progname_of inv.argv0
  let is_setenv := decide (progname = PROGRAM_SET)
  match parse_options b progname is_setenv inv.opts Flags.initial with
  | Except.error out => Except.error out
  | Except.ok fl =>
    if inv.uid ≠ 0 then
      Except.error ⟨[Event.stdout " Error: Please run the script as root user !\n"], 1⟩
    else
      let init := lib.libuboot_initialize
      let t1 := [Event.libuboot_initialize init.1]
      if init.1 < 0 then
        Except.error ⟨t1 ++ [Event.stderr "Cannot initialize environment\n"], 1⟩
      else
        let ctx1 := if fl.verbose then lib.libuboot_set_verbose init.2 else init.2
        let t2 := if fl.verbose then t1 ++ [Event.libuboot_set_verbose] else t1
        let cfgfname := fl.cfgfname.getD "/etc/fw_env.config"
        let cfg := lib.libuboot_read_config ctx1 cfgfname
        let t3 := t2 ++ [Event.libuboot_read_config cfgfname cfg.1]
        if cfg.1 < 0 then
          let u := b.line223 cfgfname cfg.1
          Except.error ⟨t3 ++ [Event.stderr u.text], u.ended.getD cfg.1⟩
        else
          let defenvfile := fl.defenvfile.getD "/etc/u-boot-initial-env"
          let op := lib.libuboot_open cfg.2
          let t4 := t3 ++ [Event.libuboot_open op.1]
          if op.1 < 0 then
            let t5 := t4 ++ [Event.stderr
              (" Error: Cannot read environment, using default. Err= " ++ toString op.1 ++ "\n")]
            let ld := lib.libuboot_load_file op.2 defenvfile
            let t6 := t5 ++ [Event.libuboot_load_file defenvfile ld.1]
            if ld.1 < 0 then
              Except.error ⟨t6 ++ [Event.stderr
                (" Error: Cannot read default environment from file. Err= " ++
                  toString ld.1 ++ "\n")], ld.1⟩
            else
              Except.ok ⟨is_setenv, fl.noheader, fl.scriptfile, true, ld.1, ld.2, t6⟩
          else
            Except.ok ⟨is_setenv, fl.noheader, fl.scriptfile, false, op.1, op.2, t4⟩

/-- Lines 242-247: every entry of the environment as `name=value`. -/
def print_all (entries : List (String × String)) : List Event :=
  entries.map fun e => Event.stdout (e.1 ++ "=" ++ e.2 ++ "\n")

/-- Lines 251-254: the line for one requested variable (`value ? value : ""`). -/
def print_line (noheader : Bool) (name : String) (value : Option String) : String :=
  if noheader then value.getD "" ++ "\n" else name ++ "=" ++ value.getD "" ++ "\n"

/-- Lines 249-255: the loop over the requested variables. -/
def print_vars {σ : Type} (lib : LibUboot σ) (ctx : σ) (noheader : Bool) :
    List String → List Event
  | [] => []
  | name :: rest =>
    let value := lib.libuboot_get_env ctx name
    Event.libuboot_get_env name value :: Event.stdout (print_line noheader name value) ::
      print_vars lib ctx noheader rest

/-- State carried through the loop of the setenv branch: the context, `need_store`, and
the events so far. -/
structure SetState (σ : Type) where
  ctx : σ
  need_store : Bool
  trace : List Event

/-- Body of the loop of lines 263-290 for `argv[i] = name`; `next` is `argv[i+1]`, or
`none` when `i + 1 == argc`.  Gives the state after the body, or the outcome of
`exit(-ret)`. -/
def setenv_step {σ : Type} (lib : LibUboot σ) (name : String) (next : Option String)
    (st : SetState σ) : Except Outcome (SetState σ) :=
  let value := lib.libuboot_get_env st.ctx name
  let t1 := st.trace ++ [Event.libuboot_get_env name value]
  match next with
  | none =>
    if value ≠ none then
      let r := lib.libuboot_set_env st.ctx name none
      let t2 := t1 ++ [Event.libuboot_set_env name none r.1]
      if r.1 ≠ 0 then
        Except.error
          ⟨t2 ++ [Event.stderr ("libuboot_set_env failed: " ++ toString r.1 ++ "\n")], -r.1⟩
      else Except.ok ⟨r.2, true, t2⟩
    else Except.ok ⟨st.ctx, st.need_store, t1⟩
  | some v =>
    if value = none ∨ value ≠ some v then
      let r := lib.libuboot_set_env st.ctx name (some v)
      let t2 := t1 ++ [Event.libuboot_set_env name (some v) r.1]
      if r.1 ≠ 0 then
        Except.error
          ⟨t2 ++ [Event.stderr ("libuboot_set_env failed: " ++ toString r.1 ++ "\n")], -r.1⟩
      else Except.ok ⟨r.2, true, t2⟩
    else Except.ok ⟨st.ctx, st.need_store, t1⟩

/-- Loop `for (i = 0; i < argc; i += 2)` of lines 263-290 over the arguments left. -/
def setenv_loop {σ : Type} (lib : LibUboot σ) :
    List String → SetState σ → Except Outcome (SetState σ)
  | [], st => Except.ok st
  | [name], st => setenv_step lib name none st
  | name :: v :: rest, st =>
    match setenv_step lib name (some v) st with
    | Except.error out => Except.error out
    | Except.ok st1 => setenv_loop lib rest st1

/-- Events of a loop result, whether the loop ended or left through `exit`. -/
def run_trace {σ : Type} : Except Outcome (SetState σ) → List Event
  | Except.error out => out.trace
  | Except.ok st => st.trace

/-- Lines 300-303: `libuboot_close`, `libuboot_exit`, `return ret`. -/
def finish (trace : List Event) (ret : Int) : Outcome :=
  ⟨trace ++ [Event.libuboot_close, Event.libuboot_exit], ret⟩

/-- Lines 293-303: the store, made when `need_store || default_used`, and the end. -/
def store_and_finish {σ : Type} (lib : LibUboot σ) (ctx : σ) (trace : List Event)
    (need_store default_used : Bool) (ret : Int) : Outcome :=
  if need_store || default_used then
    let r := lib.libuboot_env_store ctx
    let t1 := trace ++ [Event.libuboot_env_store r.1]
    let t2 := if r.1 ≠ 0 then t1 ++ [Event.stderr "Error storing the env\n"] else t1
    finish t2 r.1
  else finish trace ret

/-- What follows the loop of the setenv branch: nothing when the loop left through
`exit`, else lines 293-303. -/
def setenv_finish {σ : Type} (lib : LibUboot σ) (su : Started σ) :
    Except Outcome (SetState σ) → Outcome
  | Except.error out => out
  | Except.ok st => store_and_finish lib st.ctx st.trace st.need_store su.default_used su.ret

/-- Lines 239-303 of `main`: the printenv branch or the setenv branch, then the end. -/
def run_body {σ : Type} (lib : LibUboot σ) (su : Started σ) (args : List String) : Outcome :=
  if !su.is_setenv then
    if args.length = 0 then
      finish (su.trace ++ print_all (lib.libuboot_iterator su.ctx)) su.ret
    else
      finish (su.trace ++ print_vars lib su.ctx su.noheader args) su.ret
  else
    match su.scriptfile with
    | some scriptfile =>
      let ld := lib.libuboot_load_file su.ctx scriptfile
      store_and_finish lib ld.2 (su.trace ++ [Event.libuboot_load_file scriptfile ld.1])
        true su.default_used su.ret
    | none => setenv_finish lib su (setenv_loop lib args ⟨su.ctx, false, su.trace⟩)

/-- Function `main` (lines 140-304). -/
def main {σ : Type} (lib : LibUboot σ) (b : Build) (inv : Invocation) : Outcome :=
  match startup lib b inv with
  | Except.error out => out
  | Except.ok su => run_body lib su inv.args

/-! ## A small library in memory, for concrete runs -/

/-- Context of the small library: the table in memory, the stored copy, the text files
that exist (each with its assignments), and the result codes its calls give. -/
structure Sim where
  table : List (String × String)
  stored : List (String × String)
  files : List (String × List (String × String))
  config_ret : Int
  open_ret : Int
  setenv_ret : Int
  store_ret : Int
  deriving DecidableEq, Repr

/-- Modelled from the spec: the table access `set(name, value)` and `delete(name)` of
the library, whose code is not in `src/`: an existing name is updated in place, a new
one goes to the end, `none` removes the name. -/
def table_set (t : List (String × String)) (name : String) :
    Option String → List (String × String)
  | none => t.filter fun e => e.1 ≠ name
  | some v =>
    if (t.lookup name).isSome then t.map fun e => if e.1 = name then (name, v) else e
    else t ++ [(name, v)]

/-- Modelled from the spec: the library behind `libuboot.h`, whose code is not in
`src/`, reduced to what a run of the tool can see: open takes the stored copy or fails
with `open_ret`, a file is loaded by setting each of its assignments, get is an exact
lookup, store copies the table to the stored copy. -/
def simLib (s0 : Sim) : LibUboot Sim where
  libuboot_initialize := (0, s0)
  libuboot_set_verbose := fun s => s
  libuboot_read_config := fun s _ => (s.config_ret, s)
  libuboot_open := fun s =>
    if s.open_ret < 0 then (s.open_ret, s) else (0, { s with table := s.stored })
  libuboot_load_file := fun s fname =>
    match s.files.lookup fname with
    | none => (-2, s)
    | some kvs =>
      (0, { s with table := kvs.foldl (fun t e => table_set t e.1 (some e.2)) s.table })
  libuboot_iterator := fun s => s.table
  libuboot_get_env := fun s name => s.table.lookup name
  libuboot_set_env := fun s name value =>
    if s.setenv_ret ≠ 0 then (s.setenv_ret, s)
    else (0, { s with table := table_set s.table name value })
  libuboot_env_store := fun s =>
    if s.store_ret ≠ 0 then (s.store_ret, s) else (0, { s with stored := s.table })

/-- Build used in the concrete runs; at line 223 it writes nothing and ends the run with
status 139. -/
def build0 : Build := ⟨"Jan 31 2018", "12:00:00", fun _ _ => ⟨"", some 139⟩⟩

/-- Device with a valid stored copy `foo=bar`, already loaded, a default environment
file and a script that assigns `foo=bar` again. -/
def simValid : Sim :=
  { table := [("foo", "bar")],
    stored := [("foo", "bar")],
    files := [("/etc/u-boot-initial-env", [("netdev", "eth0"), ("kernel_addr", "400000")]),
              ("same.txt", [("foo", "bar")])],
    config_ret := 0, open_ret := 0, setenv_ret := 0, store_ret := 0 }

/-- Device whose `libuboot_open` fails with `-EIO` (-5); the default file exists. -/
def simIoError : Sim := { simValid with table := [], stored := [], open_ret := -5 }

/-- Device whose `libuboot_env_store` fails with -5. -/
def simStoreFails : Sim := { simValid with store_ret := -5 }

/-! ## Facts about the C string functions -/

theorem strlen_eq_length_cstr (s : List Char) : strlen s = (cstr s).length := by
  induction s with
  | nil => rfl
  | cons c s ih =>
    by_cases hc : c = '\x00'
    · simp [strlen, cstr, hc]
    · simp [strlen, cstr, hc, ih]

theorem cstr_deref_tail (s : List Char) (h : deref s ≠ '\x00') :
    cstr s = deref s :: cstr s.tail := by
  cases s with
  | nil => simp [deref] at h
  | cons c s =>
    simp only [deref, List.headD_cons] at h
    simp [cstr, deref, h]

theorem cstr_of_deref_nul (s : List Char) (h : deref s = '\x00') : cstr s = [] := by
  cases s with
  | nil => rfl
  | cons c s =>
    simp only [deref, List.headD_cons] at h
    simp [cstr, h]

theorem cstr_append_nul (s t : List Char) : cstr (cstr s ++ '\x00' :: t) = cstr s := by
  induction s with
  | nil => simp [cstr]
  | cons c s ih =>
    by_cases hc : c = '\x00'
    · simp [cstr, hc]
    · simp [cstr, hc, ih]

theorem strncmp_eq_zero_iff (n : Nat) :
    ∀ s p : List Char, strncmp s p n = 0 ↔ (cstr s).take n = (cstr p).take n := by
  induction n with
  | zero => intro s p; simp [strncmp]
  | succ n ih =>
    intro s p
    unfold strncmp
    by_cases hne : deref s ≠ deref p
    · rw [if_pos hne]
      have hd : ((deref s).toNat : Int) - ((deref p).toNat : Int) ≠ 0 := by
        intro h
        apply hne
        have hnat : (deref s).toNat = (deref p).toNat := by omega
        rw [← Char.ofNat_toNat (deref s), hnat, Char.ofNat_toNat]
      simp only [hd, false_iff]
      intro h
      apply hne
      by_cases hs : deref s = '\x00'
      · by_cases hp : deref p = '\x00'
        · rw [hs, hp]
        · rw [cstr_of_deref_nul s hs, cstr_deref_tail p hp] at h
          simp at h
      · by_cases hp : deref p = '\x00'
        · rw [cstr_of_deref_nul p hp, cstr_deref_tail s hs] at h
          simp at h
        · rw [cstr_deref_tail p hp, cstr_deref_tail s hs] at h
          simp at h
          exact h.1
    · rw [if_neg hne]
      have he : deref s = deref p := by
        by_contra h
        exact hne h
      by_cases hs : deref s = '\x00'
      · rw [if_pos hs]
        have hp : deref p = '\x00' := by rw [← he]; exact hs
        simp [cstr_of_deref_nul s hs, cstr_of_deref_nul p hp]
      · rw [if_neg hs]
        have hp : deref p ≠ '\x00' := by rw [← he]; exact hs
        rw [ih, cstr_deref_tail s hs, cstr_deref_tail p hp, he]
        simp

theorem strlen_succ (s : List Char) (n : Nat) (h : strlen s = n + 1) :
    ∃ c t, s = c :: t ∧ c ≠ '\x00' ∧ strlen t = n := by
  cases s with
  | nil => simp [strlen] at h
  | cons c t =>
    by_cases hc : c = '\x00'
    · simp [strlen, hc] at h
    · refine ⟨c, t, rfl, hc, ?_⟩
      simpa [strlen, hc] using h

/-! ## Month_to_Int -/

theorem Month_to_Int_loop_spec (Month : List Char) (i : Nat) :
    ∀ p : List Char,
      (Month_to_Int_loop Month p i).1 ≤ i ∧
      (Month_to_Int_loop Month p i).2 = i - (Month_to_Int_loop Month p i).1 ∧
      ((Month_to_Int_loop Month p i).1 ≠ 0 →
        strncmp Month (p.drop (MonChars * (i - (Month_to_Int_loop Month p i).1))) MonChars = 0) ∧
      (∀ j, (Month_to_Int_loop Month p i).1 < j → j ≤ i →
        strncmp Month (p.drop (MonChars * (i - j))) MonChars ≠ 0) := by
  induction i with
  | zero =>
    intro p
    simp [Month_to_Int_loop]
    intro j h1 h2
    omega
  | succ i ih =>
    intro p
    unfold Month_to_Int_loop
    by_cases hc : strncmp Month p MonChars ≠ 0
    · rw [if_pos hc]
      obtain ⟨h1, h2, h3, h4⟩ := ih (p.drop MonChars)
      simp only
      refine ⟨by omega, by omega, ?_, ?_⟩
      · intro hr
        have hz := h3 hr
        rw [List.drop_drop] at hz
        have e : MonChars + MonChars * (i - (Month_to_Int_loop Month (List.drop MonChars p) i).1)
            = MonChars * (i + 1 - (Month_to_Int_loop Month (List.drop MonChars p) i).1) := by
          rw [show i + 1 - (Month_to_Int_loop Month (List.drop MonChars p) i).1
            = (i - (Month_to_Int_loop Month (List.drop MonChars p) i).1) + 1 by omega]
          ring
        rw [← e]
        exact hz
      · intro j hj1 hj2
        by_cases hji : j = i + 1
        · subst hji
          simpa using hc
        · have hz := h4 j hj1 (by omega)
          rw [List.drop_drop] at hz
          have e : MonChars + MonChars * (i - j) = MonChars * (i + 1 - j) := by
            rw [show i + 1 - j = (i - j) + 1 by omega]
            ring
          rw [← e]
          exact hz
    · rw [if_neg hc]
      simp only [ne_eq, not_not] at hc
      refine ⟨le_refl _, by simp, ?_, ?_⟩
      · intro _
        simpa using hc
      · intro j hj1 hj2
        simp only at hj1
        omega

theorem MonthNames_slot (j : Nat) (h1 : 1 ≤ j) (h12 : j ≤ 12) :
    (cstr (MonthNames.drop (MonChars * (Months - j)))).take MonChars = month_abbrev j := by
  interval_cases j <;> decide

theorem month_abbrev_inj (j k : Nat) (hj1 : 1 ≤ j) (hj : j ≤ 12) (hk1 : 1 ≤ k) (hk : k ≤ 12)
    (h : month_abbrev j = month_abbrev k) : j = k := by
  interval_cases j <;> interval_cases k <;> first | rfl | (exfalso; revert h; decide)

theorem month_abbrev_length (k : Nat) (h1 : 1 ≤ k) (h12 : k ≤ 12) :
    (month_abbrev k).length = 3 := by
  interval_cases k <;> rfl

theorem Month_to_Int_le (Month : List Char) : Month_to_Int Month ≤ 12 :=
  (Month_to_Int_loop_spec Month Months MonthNames).1

theorem Month_to_Int_eq_iff (Month : List Char) (k : Nat) (h1 : 1 ≤ k) (h12 : k ≤ 12) :
    Month_to_Int Month = k ↔ (cstr Month).take 3 = month_abbrev k := by
  obtain ⟨hle, _, h3, h4⟩ := Month_to_Int_loop_spec Month Months MonthNames
  have hle2 : Month_to_Int Month ≤ 12 := hle
  constructor
  · intro h
    have hne : (Month_to_Int_loop Month MonthNames Months).1 ≠ 0 := by
      show Month_to_Int Month ≠ 0
      omega
    have hz := h3 hne
    rw [strncmp_eq_zero_iff] at hz
    rw [MonthNames_slot _ (Nat.pos_of_ne_zero hne) hle] at hz
    have e : (Month_to_Int_loop Month MonthNames Months).1 = k := h
    rw [e] at hz
    exact hz
  · intro h
    by_contra hne
    rcases Nat.lt_or_gt_of_ne hne with hlt | hgt
    · have hz := h4 k hlt h12
      rw [Ne, strncmp_eq_zero_iff, MonthNames_slot k h1 h12] at hz
      exact hz h
    · have hpos : (Month_to_Int_loop Month MonthNames Months).1 ≠ 0 := by
        show Month_to_Int Month ≠ 0
        omega
      have hz := h3 hpos
      rw [strncmp_eq_zero_iff, MonthNames_slot _ (Nat.pos_of_ne_zero hpos) hle] at hz
      have e : month_abbrev (Month_to_Int Month) = month_abbrev k := by
        rw [← h]
        exact hz.symm
      have hjk := month_abbrev_inj _ _ (by omega) hle2 h1 h12 e
      omega

/-- C9: `Month_to_Int` is total, its loop body runs at most 12 times, and the result is
`k` in 1..12 exactly when the first three characters of the input are the abbreviation
of month `k` (Jan = 1, ..., Dec = 12, compared case-sensitively); it is 0 for every other
input, among them the empty string and every string shorter than three characters. -/
theorem Month_to_Int_decodes (Month : List Char) :
    (Month_to_Int_loop Month MonthNames Months).2 ≤ 12 ∧
    Month_to_Int Month ≤ 12 ∧
    (∀ k, 1 ≤ k → k ≤ 12 →
      (Month_to_Int Month = k ↔ (cstr Month).take 3 = month_abbrev k)) ∧
    (Month_to_Int Month = 0 ↔
      ∀ k, 1 ≤ k → k ≤ 12 → (cstr Month).take 3 ≠ month_abbrev k) ∧
    (strlen Month < 3 → Month_to_Int Month = 0) ∧
    Month_to_Int [] = 0 := by
  have hzero : Month_to_Int Month = 0 ↔
      ∀ k, 1 ≤ k → k ≤ 12 → (cstr Month).take 3 ≠ month_abbrev k := by
    constructor
    · intro h0 k h1 h12 hk
      have hk2 := (Month_to_Int_eq_iff Month k h1 h12).2 hk
      omega
    · intro hall
      by_contra hne
      exact hall (Month_to_Int Month) (Nat.pos_of_ne_zero hne) (Month_to_Int_le Month)
        ((Month_to_Int_eq_iff Month _ (Nat.pos_of_ne_zero hne) (Month_to_Int_le Month)).1 rfl)
  refine ⟨?_, Month_to_Int_le Month, fun k h1 h12 => Month_to_Int_eq_iff Month k h1 h12,
    hzero, ?_, by decide⟩
  · have h2 := (Month_to_Int_loop_spec Month Months MonthNames).2.1
    have hM : Months = 12 := rfl
    omega
  · intro hshort
    rw [hzero]
    intro k h1 h12 hk
    have hl := congrArg List.length hk
    rw [month_abbrev_length k h1 h12, List.length_take, ← strlen_eq_length_cstr] at hl
    omega

/-! ## English_to_ScientificDate -/

theorem strlen_eleven (s : List Char) (h : strlen s = 11) :
    ∃ c0 c1 c2 c3 c4 c5 c6 c7 c8 c9 c10 t,
      s = c0 :: c1 :: c2 :: c3 :: c4 :: c5 :: c6 :: c7 :: c8 :: c9 :: c10 :: t ∧
      c4 ≠ '\x00' ∧ c5 ≠ '\x00' ∧ c7 ≠ '\x00' ∧ c8 ≠ '\x00' ∧ c9 ≠ '\x00' ∧ c10 ≠ '\x00' := by
  obtain ⟨c0, s, rfl, _, h⟩ := strlen_succ _ _ h
  obtain ⟨c1, s, rfl, _, h⟩ := strlen_succ _ _ h
  obtain ⟨c2, s, rfl, _, h⟩ := strlen_succ _ _ h
  obtain ⟨c3, s, rfl, _, h⟩ := strlen_succ _ _ h
  obtain ⟨c4, s, rfl, h4, h⟩ := strlen_succ _ _ h
  obtain ⟨c5, s, rfl, h5, h⟩ := strlen_succ _ _ h
  obtain ⟨c6, s, rfl, _, h⟩ := strlen_succ _ _ h
  obtain ⟨c7, s, rfl, h7, h⟩ := strlen_succ _ _ h
  obtain ⟨c8, s, rfl, h8, h⟩ := strlen_succ _ _ h
  obtain ⟨c9, s, rfl, h9, h⟩ := strlen_succ _ _ h
  obtain ⟨c10, s, rfl, h10, h⟩ := strlen_succ _ _ h
  exact ⟨c0, c1, c2, c3, c4, c5, c6, c7, c8, c9, c10, s, rfl, h4, h5, h7, h8, h9, h10⟩

theorem fmt_02d_month (m : Nat) (h1 : 1 ≤ m) (h12 : m ≤ 12) :
    fmt_02d m = [Nat.digitChar (m / 10), Nat.digitChar (m % 10)] ∧
    Nat.digitChar (m / 10) ≠ '\x00' ∧ Nat.digitChar (m % 10) ≠ '\x00' := by
  interval_cases m <;> decide

theorem English_to_ScientificDate_success (s : List Char) (h11 : strlen s = 11)
    (hm : Month_to_Int s ≠ 0) :
    English_to_ScientificDate s =
      ((s.drop 7).take 4 ++ ['-', Nat.digitChar (Month_to_Int s / 10),
          Nat.digitChar (Month_to_Int s % 10), '-',
          (if s.getD 4 ' ' = ' ' then '0' else s.getD 4 ' '), s.getD 5 ' ', '\x00'],
       Month_to_Int s) ∧
    cstr (English_to_ScientificDate s).1 =
      (s.drop 7).take 4 ++ ['-', Nat.digitChar (Month_to_Int s / 10),
          Nat.digitChar (Month_to_Int s % 10), '-',
          (if s.getD 4 ' ' = ' ' then '0' else s.getD 4 ' '), s.getD 5 ' '] := by
  obtain ⟨hf, hd1, hd2⟩ := fmt_02d_month _ (Nat.pos_of_ne_zero hm) (Month_to_Int_le s)
  obtain ⟨c0, c1, c2, c3, c4, c5, c6, c7, c8, c9, c10, t, rfl, h4, h5, h7, h8, h9, h10⟩ :=
    strlen_eleven s h11
  have himg : English_to_ScientificDate
      (c0 :: c1 :: c2 :: c3 :: c4 :: c5 :: c6 :: c7 :: c8 :: c9 :: c10 :: t) =
      (((c0 :: c1 :: c2 :: c3 :: c4 :: c5 :: c6 :: c7 :: c8 :: c9 :: c10 :: t).drop 7).take 4 ++
        ['-', Nat.digitChar (Month_to_Int
            (c0 :: c1 :: c2 :: c3 :: c4 :: c5 :: c6 :: c7 :: c8 :: c9 :: c10 :: t) / 10),
          Nat.digitChar (Month_to_Int
            (c0 :: c1 :: c2 :: c3 :: c4 :: c5 :: c6 :: c7 :: c8 :: c9 :: c10 :: t) % 10), '-',
          (if (c0 :: c1 :: c2 :: c3 :: c4 :: c5 :: c6 :: c7 :: c8 :: c9 :: c10 :: t).getD 4 ' '
              = ' ' then '0'
            else (c0 :: c1 :: c2 :: c3 :: c4 :: c5 :: c6 :: c7 :: c8 :: c9 :: c10 :: t).getD 4 ' '),
          (c0 :: c1 :: c2 :: c3 :: c4 :: c5 :: c6 :: c7 :: c8 :: c9 :: c10 :: t).getD 5 ' ',
          '\x00'],
       Month_to_Int (c0 :: c1 :: c2 :: c3 :: c4 :: c5 :: c6 :: c7 :: c8 :: c9 :: c10 :: t)) := by
    unfold English_to_ScientificDate
    simp only [h11, if_true, hm, ne_eq, not_false_eq_true]
    simp only [snprintf_month, hf]
    by_cases hsp : c4 = ' '
    · simp [poke, strncpy, deref, h4, h5, h7, h8, h9, h10, hsp]
    · simp [poke, strncpy, deref, h4, h5, h7, h8, h9, h10, hsp]
  refine ⟨himg, ?_⟩
  rw [himg]
  by_cases hsp : c4 = ' '
  · subst hsp
    simp [cstr, h5, h7, h8, h9, h10, hd1, hd2]
  · simp [cstr, h4, h5, h7, h8, h9, h10, hsp, hd1, hd2]

theorem English_to_ScientificDate_reject (s : List Char)
    (h : ¬ (strlen s = 11 ∧ Month_to_Int s ≠ 0)) :
    English_to_ScientificDate s = (cstr s ++ ['\x00'], 0) := by
  unfold English_to_ScientificDate
  by_cases h11 : strlen s = 11
  · have hm : Month_to_Int s = 0 := by
      by_contra hne
      exact h ⟨h11, hne⟩
    simp [h11, hm, poke, strcpy]
  · simp [h11, poke, strcpy]

/-- C8: for an input of 11 characters whose first three are the abbreviation of month
`m`, `English_to_ScientificDate` returns `m` and leaves the 10 character string
`yyyy-MM-dd` in the buffer: characters 7..10 of the input, `-`, `m` in two decimal
digits, `-`, characters 4..5 of the input with a leading space turned into `0`.
`"Jan 31 2018"` gives `"2018-01-31"` and `"Feb  3 2018"` gives `"2018-02-03"`. -/
theorem English_to_ScientificDate_valid (EnglishDate : List Char) (m : Nat)
    (hlen : strlen EnglishDate = 11) (h1 : 1 ≤ m) (h12 : m ≤ 12)
    (hmon : (cstr EnglishDate).take 3 = month_abbrev m) :
    (English_to_ScientificDate EnglishDate).2 = m ∧
    cstr (English_to_ScientificDate EnglishDate).1 =
      (EnglishDate.drop 7).take 4 ++ ['-', Nat.digitChar (m / 10), Nat.digitChar (m % 10), '-',
        (if EnglishDate.getD 4 ' ' = ' ' then '0' else EnglishDate.getD 4 ' '),
        EnglishDate.getD 5 ' '] ∧
    strlen (English_to_ScientificDate EnglishDate).1 = 10 ∧
    English_to_ScientificDate "Jan 31 2018".toList = ("2018-01-31".toList ++ ['\x00'], 1) ∧
    English_to_ScientificDate "Feb  3 2018".toList = ("2018-02-03".toList ++ ['\x00'], 2) := by
  have hm : Month_to_Int EnglishDate = m := (Month_to_Int_eq_iff EnglishDate m h1 h12).2 hmon
  have hne : Month_to_Int EnglishDate ≠ 0 := by omega
  obtain ⟨himg, hstr⟩ := English_to_ScientificDate_success EnglishDate hlen hne
  rw [hm] at himg hstr
  refine ⟨by rw [himg], hstr, ?_, by decide, by decide⟩
  rw [strlen_eq_length_cstr, hstr]
  obtain ⟨c0, c1, c2, c3, c4, c5, c6, c7, c8, c9, c10, t, rfl, _⟩ := strlen_eleven _ hlen
  simp

/-- Witness for C8: the two dates of the claim, `"Jan 31 2018"` and `"Feb  3 2018"`. -/
theorem English_to_ScientificDate_valid_witness :
    (strlen "Jan 31 2018".toList = 11 ∧
      (cstr "Jan 31 2018".toList).take 3 = month_abbrev 1 ∧
      (English_to_ScientificDate "Jan 31 2018".toList).2 = 1 ∧
      cstr (English_to_ScientificDate "Jan 31 2018".toList).1 = "2018-01-31".toList) ∧
    (strlen "Feb  3 2018".toList = 11 ∧
      (cstr "Feb  3 2018".toList).take 3 = month_abbrev 2 ∧
      (English_to_ScientificDate "Feb  3 2018".toList).2 = 2 ∧
      cstr (English_to_ScientificDate "Feb  3 2018".toList).1 = "2018-02-03".toList) :=
  ⟨⟨by decide, by decide,
      (English_to_ScientificDate_valid "Jan 31 2018".toList 1
        (by decide) (by decide) (by decide) (by decide)).1,
      (English_to_ScientificDate_valid "Jan 31 2018".toList 1
        (by decide) (by decide) (by decide) (by decide)).2.1.trans (by decide)⟩,
   ⟨by decide, by decide,
      (English_to_ScientificDate_valid "Feb  3 2018".toList 2
        (by decide) (by decide) (by decide) (by decide)).1,
      (English_to_ScientificDate_valid "Feb  3 2018".toList 2
        (by decide) (by decide) (by decide) (by decide)).2.1.trans (by decide)⟩⟩

/-- C10, counterexample: `"Foo 31 2018"` has 11 characters and no known month, so the
function copies it whole: 11 characters and the terminator are stored, 12 in all, which
a buffer of 10+1 characters does not hold. -/
theorem English_to_ScientificDate_overlong_copy :
    strlen "Foo 31 2018".toList = 11 ∧
    Month_to_Int "Foo 31 2018".toList = 0 ∧
    English_to_ScientificDate "Foo 31 2018".toList = ("Foo 31 2018".toList ++ ['\x00'], 0) ∧
    (English_to_ScientificDate "Foo 31 2018".toList).1.length = 12 ∧
    ¬ strlen (English_to_ScientificDate "Foo 31 2018".toList).1 ≤ 10 := by
  decide

/-- C10, amended: when `English_to_ScientificDate` succeeds (11 characters and a known
month) the string written has exactly 10 characters before its terminator, 11 stored
characters in all; on every other input the input is copied unchanged, so the string
written is as long as the input.  Hence the written string has at most 10 characters
exactly when the call succeeds or the input itself has at most 10. -/
theorem English_to_ScientificDate_written_length (EnglishDate : List Char) :
    ((strlen EnglishDate = 11 ∧ Month_to_Int EnglishDate ≠ 0) →
      strlen (English_to_ScientificDate EnglishDate).1 = 10 ∧
      (English_to_ScientificDate EnglishDate).1.length = 11) ∧
    (¬ (strlen EnglishDate = 11 ∧ Month_to_Int EnglishDate ≠ 0) →
      cstr (English_to_ScientificDate EnglishDate).1 = cstr EnglishDate ∧
      strlen (English_to_ScientificDate EnglishDate).1 = strlen EnglishDate ∧
      (English_to_ScientificDate EnglishDate).1.length = strlen EnglishDate + 1) ∧
    (strlen (English_to_ScientificDate EnglishDate).1 ≤ 10 ↔
      (strlen EnglishDate = 11 ∧ Month_to_Int EnglishDate ≠ 0) ∨ strlen EnglishDate ≤ 10) := by
  have hacc : (strlen EnglishDate = 11 ∧ Month_to_Int EnglishDate ≠ 0) →
      strlen (English_to_ScientificDate EnglishDate).1 = 10 ∧
      (English_to_ScientificDate EnglishDate).1.length = 11 := by
    rintro ⟨h11, hm⟩
    obtain ⟨himg, hstr⟩ := English_to_ScientificDate_success EnglishDate h11 hm
    obtain ⟨c0, c1, c2, c3, c4, c5, c6, c7, c8, c9, c10, t, rfl, _⟩ := strlen_eleven _ h11
    constructor
    · rw [strlen_eq_length_cstr, hstr]
      simp
    · rw [himg]
      simp
  have hrej : ¬ (strlen EnglishDate = 11 ∧ Month_to_Int EnglishDate ≠ 0) →
      cstr (English_to_ScientificDate EnglishDate).1 = cstr EnglishDate ∧
      strlen (English_to_ScientificDate EnglishDate).1 = strlen EnglishDate ∧
      (English_to_ScientificDate EnglishDate).1.length = strlen EnglishDate + 1 := by
    intro h
    rw [English_to_ScientificDate_reject EnglishDate h]
    refine ⟨cstr_append_nul _ _, ?_, ?_⟩
    · rw [strlen_eq_length_cstr, cstr_append_nul, ← strlen_eq_length_cstr]
    · simp [strlen_eq_length_cstr]
  refine ⟨hacc, hrej, ?_⟩
  by_cases h : strlen EnglishDate = 11 ∧ Month_to_Int EnglishDate ≠ 0
  · have h10 := (hacc h).1
    constructor
    · intro _
      exact Or.inl h
    · intro _
      omega
  · have hlen := (hrej h).2.1
    constructor
    · intro hle
      right
      omega
    · intro hor
      rcases hor with hacc2 | hle
      · exact absurd hacc2 h
      · omega

/-! ## The loop of the setenv branch -/

theorem list_two_step {α : Type} {P : List α → Prop} (nil : P [])
    (singleton : ∀ a, P [a]) (cons_cons : ∀ a b l, P l → P [b] → P (a :: b :: l)) :
    ∀ l, P l := by
  have key : ∀ l, P l ∧ ∀ a, P (a :: l) := by
    intro l
    induction l with
    | nil => exact ⟨nil, singleton⟩
    | cons b l ih => exact ⟨ih.2 b, fun a => cons_cons a b l ih.1 (singleton b)⟩
  exact fun l => (key l).1

theorem setenv_step_ok {σ : Type} (lib : LibUboot σ) (name : String) (next : Option String)
    (st st1 : SetState σ) (h : setenv_step lib name next st = Except.ok st1) :
    ∃ evs, st1.trace = st.trace ++ evs ∧
      (∀ e ∈ evs, (∃ n v, e = Event.libuboot_get_env n v) ∨
        (∃ n v, e = Event.libuboot_set_env n v 0)) ∧
      (st1.need_store = true ↔
        st.need_store = true ∨ ∃ n v, Event.libuboot_set_env n v 0 ∈ evs) := by
  unfold setenv_step at h
  cases next with
  | none =>
    simp only at h
    split_ifs at h with h1 h2
    · simp only [Except.ok.injEq] at h
      subst h
      simp only [not_not] at h2
      refine ⟨[Event.libuboot_get_env name (lib.libuboot_get_env st.ctx name),
        Event.libuboot_set_env name none 0], by simp [h2], ?_, ?_⟩
      · intro e he
        simp at he
        rcases he with he | he
        · exact Or.inl ⟨_, _, he⟩
        · exact Or.inr ⟨_, _, he⟩
      · simp
    · simp only [Except.ok.injEq] at h
      subst h
      refine ⟨[Event.libuboot_get_env name (lib.libuboot_get_env st.ctx name)], rfl, ?_, ?_⟩
      · intro e he
        simp at he
        exact Or.inl ⟨_, _, he⟩
      · simp
  | some v =>
    simp only at h
    split_ifs at h with h1 h2
    · simp only [Except.ok.injEq] at h
      subst h
      simp only [not_not] at h2
      refine ⟨[Event.libuboot_get_env name (lib.libuboot_get_env st.ctx name),
        Event.libuboot_set_env name (some v) 0], by simp [h2], ?_, ?_⟩
      · intro e he
        simp at he
        rcases he with he | he
        · exact Or.inl ⟨_, _, he⟩
        · exact Or.inr ⟨_, _, he⟩
      · simp
    · simp only [Except.ok.injEq] at h
      subst h
      refine ⟨[Event.libuboot_get_env name (lib.libuboot_get_env st.ctx name)], rfl, ?_, ?_⟩
      · intro e he
        simp at he
        exact Or.inl ⟨_, _, he⟩
      · simp

theorem setenv_step_error {σ : Type} (lib : LibUboot σ) (name : String) (next : Option String)
    (st : SetState σ) (out : Outcome) (h : setenv_step lib name next st = Except.error out) :
    ∃ evs n v r msg, out.trace = st.trace ++ evs ++
        [Event.libuboot_set_env n v r, Event.stderr msg] ∧ r ≠ 0 ∧ out.status = -r ∧
      (∀ e ∈ evs, (∃ n v, e = Event.libuboot_get_env n v) ∨
        (∃ n v, e = Event.libuboot_set_env n v 0)) := by
  unfold setenv_step at h
  cases next with
  | none =>
    simp only at h
    split_ifs at h with h1 h2
    simp only [Except.error.injEq] at h
    subst h
    refine ⟨[Event.libuboot_get_env name (lib.libuboot_get_env st.ctx name)], name, none,
      (lib.libuboot_set_env st.ctx name none).1,
      "libuboot_set_env failed: " ++ toString (lib.libuboot_set_env st.ctx name none).1 ++ "\n",
      by simp, h2, rfl, ?_⟩
    intro e he
    simp at he
    exact Or.inl ⟨_, _, he⟩
  | some v =>
    simp only at h
    split_ifs at h with h1 h2
    simp only [Except.error.injEq] at h
    subst h
    refine ⟨[Event.libuboot_get_env name (lib.libuboot_get_env st.ctx name)], name, some v,
      (lib.libuboot_set_env st.ctx name (some v)).1,
      "libuboot_set_env failed: " ++
        toString (lib.libuboot_set_env st.ctx name (some v)).1 ++ "\n",
      by simp, h2, rfl, ?_⟩
    intro e he
    simp at he
    exact Or.inl ⟨_, _, he⟩

theorem setenv_loop_ok {σ : Type} (lib : LibUboot σ) (args : List String) :
    ∀ (st st1 : SetState σ), setenv_loop lib args st = Except.ok st1 →
    ∃ evs, st1.trace = st.trace ++ evs ∧
      (∀ e ∈ evs, (∃ n v, e = Event.libuboot_get_env n v) ∨
        (∃ n v, e = Event.libuboot_set_env n v 0)) ∧
      (st1.need_store = true ↔
        st.need_store = true ∨ ∃ n v, Event.libuboot_set_env n v 0 ∈ evs) := by
  induction args using list_two_step with
  | nil =>
    intro st st1 h
    simp only [setenv_loop, Except.ok.injEq] at h
    subst h
    exact ⟨[], by simp, by simp, by simp⟩
  | singleton name =>
    intro st st1 h
    exact setenv_step_ok lib name none st st1 h
  | cons_cons name v rest ih _ =>
    intro st st1 h
    simp only [setenv_loop] at h
    cases hstep : setenv_step lib name (some v) st with
    | error out => simp [hstep] at h
    | ok st2 =>
      simp only [hstep] at h
      obtain ⟨evs1, ht1, hk1, hn1⟩ := setenv_step_ok lib name (some v) st st2 hstep
      obtain ⟨evs2, ht2, hk2, hn2⟩ := ih st2 st1 h
      refine ⟨evs1 ++ evs2, by rw [ht2, ht1, List.append_assoc], ?_, ?_⟩
      · intro e he
        rcases List.mem_append.1 he with he | he
        · exact hk1 e he
        · exact hk2 e he
      · rw [hn2, hn1]
        constructor
        · rintro (h1 | ⟨n, w, hw⟩)
          · rcases h1 with h1 | ⟨n, w, hw⟩
            · exact Or.inl h1
            · exact Or.inr ⟨n, w, List.mem_append.2 (Or.inl hw)⟩
          · exact Or.inr ⟨n, w, List.mem_append.2 (Or.inr hw)⟩
        · rintro (h1 | ⟨n, w, hw⟩)
          · exact Or.inl (Or.inl h1)
          · rcases List.mem_append.1 hw with hw | hw
            · exact Or.inl (Or.inr ⟨n, w, hw⟩)
            · exact Or.inr ⟨n, w, hw⟩

theorem setenv_loop_error {σ : Type} (lib : LibUboot σ) (args : List String) :
    ∀ (st : SetState σ) (out : Outcome), setenv_loop lib args st = Except.error out →
    ∃ evs n v r msg, out.trace = st.trace ++ evs ++
        [Event.libuboot_set_env n v r, Event.stderr msg] ∧ r ≠ 0 ∧ out.status = -r ∧
      (∀ e ∈ evs, (∃ n v, e = Event.libuboot_get_env n v) ∨
        (∃ n v, e = Event.libuboot_set_env n v 0)) := by
  induction args using list_two_step with
  | nil =>
    intro st out h
    simp [setenv_loop] at h
  | singleton name =>
    intro st out h
    exact setenv_step_error lib name none st out h
  | cons_cons name v rest ih _ =>
    intro st out h
    simp only [setenv_loop] at h
    cases hstep : setenv_step lib name (some v) st with
    | error out2 =>
      simp only [hstep, Except.error.injEq] at h
      subst h
      exact setenv_step_error lib name (some v) st out2 hstep
    | ok st2 =>
      simp only [hstep] at h
      obtain ⟨evs1, ht1, hk1, _⟩ := setenv_step_ok lib name (some v) st st2 hstep
      obtain ⟨evs2, n, w, r, msg, ht2, hr, hs, hk2⟩ := ih st2 out h
      refine ⟨evs1 ++ evs2, n, w, r, msg, by rw [ht2, ht1]; simp, hr, hs, ?_⟩
      intro e he
      rcases List.mem_append.1 he with he | he
      · exact hk1 e he
      · exact hk2 e he

theorem setenv_loop_append {σ : Type} (lib : LibUboot σ) (pre : List String) :
    ∀ (more : List String) (st : SetState σ), pre.length % 2 = 0 →
    setenv_loop lib (pre ++ more) st =
      match setenv_loop lib pre st with
      | Except.error out => Except.error out
      | Except.ok st1 => setenv_loop lib more st1 := by
  induction pre using list_two_step with
  | nil =>
    intro more st _
    simp [setenv_loop]
  | singleton name =>
    intro more st h
    simp at h
  | cons_cons name v rest ih _ =>
    intro more st h
    have hrest : rest.length % 2 = 0 := by
      simp only [List.length_cons] at h
      omega
    simp only [List.cons_append, setenv_loop]
    cases hstep : setenv_step lib name (some v) st with
    | error out => rfl
    | ok st2 => exact ih more st2 hrest

/-! ## The part of main before the mode is looked at -/

theorem parse_options_error (b : Build) (progname : String) (is_setenv : Bool)
    (opts : List Opt) :
    ∀ (fl : Flags) (out : Outcome),
      parse_options b progname is_setenv opts fl = Except.error out →
      (∀ e ∈ out.trace, ∃ t, e = Event.stdout t) ∧ (out.status = 0 ∨ out.status = 1) := by
  induction opts with
  | nil =>
    intro fl out h
    simp [parse_options] at h
  | cons o rest ih =>
    intro fl out h
    cases o <;> simp only [parse_options] at h
    case c a => exact ih _ out h
    case n => exact ih _ out h
    case f a => exact ih _ out h
    case s a => exact ih _ out h
    case v => exact ih _ out h
    case V =>
      simp only [Except.error.injEq] at h
      subst h
      simp
    case h =>
      simp only [Except.error.injEq] at h
      subst h
      refine ⟨?_, Or.inl rfl⟩
      intro e he
      simp only [usage, List.mem_cons, List.mem_singleton, List.not_mem_nil, or_false] at he
      rcases he with he | he | he | he
      · exact ⟨_, he⟩
      · exact ⟨_, he⟩
      · exact ⟨_, he⟩
      · split_ifs at he
        · exact ⟨_, he⟩
        · exact ⟨_, he⟩
    case unknown =>
      simp only [Except.error.injEq] at h
      subst h
      simp

theorem parse_options_flags (b : Build) (progname : String) (is_setenv : Bool)
    (opts : List Opt) :
    ∀ (fl fl1 : Flags), parse_options b progname is_setenv opts fl = Except.ok fl1 →
      (fl1.noheader = true ↔ fl.noheader = true ∨ Opt.n ∈ opts) ∧
      (fl1.scriptfile = none ↔ fl.scriptfile = none ∧ ∀ a, Opt.s a ∉ opts) := by
  induction opts with
  | nil =>
    intro fl fl1 h
    simp only [parse_options, Except.ok.injEq] at h
    subst h
    simp
  | cons o rest ih =>
    intro fl fl1 h
    cases o <;> simp only [parse_options] at h
    case c a =>
      obtain ⟨h1, h2⟩ := ih _ fl1 h
      simp [h1, h2]
    case n =>
      obtain ⟨h1, h2⟩ := ih _ fl1 h
      simp [h1, h2]
    case f a =>
      obtain ⟨h1, h2⟩ := ih _ fl1 h
      simp [h1, h2]
    case s a =>
      obtain ⟨h1, h2⟩ := ih _ fl1 h
      refine ⟨by simp [h1], ?_⟩
      have hne : fl1.scriptfile ≠ none := by
        intro hc
        have hfalse := h2.1 hc
        simp at hfalse
      constructor
      · intro hc
        exact absurd hc hne
      · rintro ⟨_, hall⟩
        exact absurd (List.mem_cons_self _ _) (hall a)
    case v =>
      obtain ⟨h1, h2⟩ := ih _ fl1 h
      simp [h1, h2]
    case V => simp at h
    case h => simp at h
    case unknown => simp at h

theorem parse_options_script (b : Build) (progname : String) (is_setenv : Bool)
    (opts : List Opt) :
    ∀ (fl fl1 : Flags) (f : String),
      parse_options b progname is_setenv opts fl = Except.ok fl1 →
      fl1.scriptfile = some f →
      (fl.scriptfile = some f ∧ ∀ a, Opt.s a ∉ opts) ∨
      ∃ before after, opts = before ++ Opt.s f :: after ∧ ∀ a, Opt.s a ∉ after := by
  induction opts with
  | nil =>
    intro fl fl1 f h hf
    simp only [parse_options, Except.ok.injEq] at h
    subst h
    exact Or.inl ⟨hf, by simp⟩
  | cons o rest ih =>
    intro fl fl1 f h hf
    have hstep : ∀ fl2 : Flags, parse_options b progname is_setenv rest fl2 = Except.ok fl1 →
        (fl2.scriptfile = some f ∧ ∀ a, Opt.s a ∉ rest) ∨
        ∃ before after, o :: rest = before ++ Opt.s f :: after ∧ ∀ a, Opt.s a ∉ after := by
      intro fl2 h2
      rcases ih fl2 fl1 f h2 hf with h3 | ⟨before, after, h3, h4⟩
      · exact Or.inl h3
      · exact Or.inr ⟨o :: before, after, by rw [h3]; rfl, h4⟩
    cases o <;> simp only [parse_options] at h
    case c a =>
      rcases hstep _ h with ⟨h3, h4⟩ | h3
      · exact Or.inl ⟨h3, by simpa using h4⟩
      · exact Or.inr h3
    case n =>
      rcases hstep _ h with ⟨h3, h4⟩ | h3
      · exact Or.inl ⟨h3, by simpa using h4⟩
      · exact Or.inr h3
    case f a =>
      rcases hstep _ h with ⟨h3, h4⟩ | h3
      · exact Or.inl ⟨h3, by simpa using h4⟩
      · exact Or.inr h3
    case v =>
      rcases hstep _ h with ⟨h3, h4⟩ | h3
      · exact Or.inl ⟨h3, by simpa using h4⟩
      · exact Or.inr h3
    case s a =>
      rcases hstep _ h with ⟨h3, h4⟩ | h3
      · simp only [Option.some.injEq] at h3
        subst h3
        exact Or.inr ⟨[], rest, rfl, h4⟩
      · exact Or.inr h3
    case V => simp at h
    case h => simp at h
    case unknown => simp at h

theorem startup_ok_shape {σ : Type} (lib : LibUboot σ) (b : Build) (inv : Invocation)
    (su : Started σ) (h : startup lib b inv = Except.ok su) :
    ∃ fl pre,
      parse_options b (progname_of inv.argv0) (decide (progname_of inv.argv0 = PROGRAM_SET))
        inv.opts Flags.initial = Except.ok fl ∧
      inv.uid = 0 ∧
      su.is_setenv = decide (progname_of inv.argv0 = PROGRAM_SET) ∧
      su.noheader = fl.noheader ∧ su.scriptfile = fl.scriptfile ∧
      0 ≤ su.ret ∧
      (∀ e ∈ pre, e.isEarly) ∧
      ((su.default_used = false ∧ su.trace = pre ++ [Event.libuboot_open su.ret]) ∨
       (su.default_used = true ∧ ∃ r0 msg, r0 < 0 ∧
          su.trace = pre ++ [Event.libuboot_open r0, Event.stderr msg,
            Event.libuboot_load_file (fl.defenvfile.getD "/etc/u-boot-initial-env") su.ret])) := by
  unfold startup at h
  simp only at h
  split at h
  · simp at h
  · rename_i fl hfl
    by_cases h1 : inv.uid ≠ 0
    · simp [h1] at h
    · rw [if_neg h1] at h
      simp only [ne_eq, not_not] at h1
      generalize lib.libuboot_initialize = init at h
      by_cases h2 : init.1 < 0
      · simp [h2] at h
      · rw [if_neg h2] at h
        have ht2 : ∀ e ∈ (if fl.verbose = true then
            [Event.libuboot_initialize init.1] ++ [Event.libuboot_set_verbose]
            else [Event.libuboot_initialize init.1]), e.isEarly := by
          intro e he
          split_ifs at he
          · simp only [List.singleton_append, List.mem_cons, List.mem_singleton,
              List.not_mem_nil, or_false] at he
            rcases he with he | he
            · subst he
              exact not_lt.1 h2
            · subst he
              trivial
          · simp only [List.mem_singleton] at he
            subst he
            exact not_lt.1 h2
        generalize (if fl.verbose = true then
            [Event.libuboot_initialize init.1] ++ [Event.libuboot_set_verbose]
            else [Event.libuboot_initialize init.1]) = t2 at h ht2
        generalize (if fl.verbose = true then lib.libuboot_set_verbose init.2 else init.2)
          = ctx1 at h
        generalize lib.libuboot_read_config ctx1 (fl.cfgfname.getD "/etc/fw_env.config")
          = cfg at h
        by_cases h3 : cfg.1 < 0
        · simp [h3] at h
        · rw [if_neg h3] at h
          have hpre : ∀ e ∈ t2 ++
              [Event.libuboot_read_config (fl.cfgfname.getD "/etc/fw_env.config") cfg.1],
              e.isEarly := by
            intro e he
            rcases List.mem_append.1 he with he | he
            · exact ht2 e he
            · simp only [List.mem_singleton] at he
              subst he
              exact not_lt.1 h3
          generalize lib.libuboot_open cfg.2 = op at h
          by_cases h4 : op.1 < 0
          · rw [if_pos h4] at h
            generalize lib.libuboot_load_file op.2
              (fl.defenvfile.getD "/etc/u-boot-initial-env") = ld at h
            by_cases h5 : ld.1 < 0
            · simp [h5] at h
            · rw [if_neg h5] at h
              simp only [Except.ok.injEq] at h
              subst h
              exact ⟨fl, _, hfl, h1, rfl, rfl, rfl, not_lt.1 h5, hpre,
                Or.inr ⟨rfl, op.1,
                  " Error: Cannot read environment, using default. Err= " ++ toString op.1 ++ "\n",
                  h4, by simp⟩⟩
          · rw [if_neg h4] at h
            simp only [Except.ok.injEq] at h
            subst h
            exact ⟨fl, _, hfl, h1, rfl, rfl, rfl, not_lt.1 h4, hpre, Or.inl ⟨rfl, rfl⟩⟩

theorem startup_error_shape {σ : Type} (lib : LibUboot σ) (b : Build) (inv : Invocation)
    (out : Outcome) (h : startup lib b inv = Except.error out) :
    parse_options b (progname_of inv.argv0) (decide (progname_of inv.argv0 = PROGRAM_SET))
        inv.opts Flags.initial = Except.error out ∨
    ∃ fl, parse_options b (progname_of inv.argv0)
        (decide (progname_of inv.argv0 = PROGRAM_SET)) inv.opts Flags.initial = Except.ok fl ∧
      ((inv.uid ≠ 0 ∧
          out = ⟨[Event.stdout " Error: Please run the script as root user !\n"], 1⟩) ∨
       (inv.uid = 0 ∧
        ((∃ r msg, r < 0 ∧ out = ⟨[Event.libuboot_initialize r, Event.stderr msg], 1⟩) ∨
         (∃ pre f r msg st, r < 0 ∧ (∀ e ∈ pre, e.isEarly) ∧
            out = ⟨pre ++ [Event.libuboot_read_config f r, Event.stderr msg], st⟩) ∨
         (∃ pre r0 msg0 r1 msg1, r0 < 0 ∧ r1 < 0 ∧ (∀ e ∈ pre, e.isEarly) ∧
            out = ⟨pre ++ [Event.libuboot_open r0, Event.stderr msg0,
              Event.libuboot_load_file (fl.defenvfile.getD "/etc/u-boot-initial-env") r1,
              Event.stderr msg1], r1⟩)))) := by
  unfold startup at h
  simp only at h
  split at h
  · rename_i out1 hfl
    simp only [Except.error.injEq] at h
    subst h
    exact Or.inl hfl
  · rename_i fl hfl
    refine Or.inr ⟨fl, hfl, ?_⟩
    by_cases h1 : inv.uid ≠ 0
    · rw [if_pos h1] at h
      simp only [Except.error.injEq] at h
      exact Or.inl ⟨h1, h.symm⟩
    · rw [if_neg h1] at h
      simp only [ne_eq, not_not] at h1
      refine Or.inr ⟨h1, ?_⟩
      generalize lib.libuboot_initialize = init at h
      by_cases h2 : init.1 < 0
      · rw [if_pos h2] at h
        simp only [Except.error.injEq] at h
        exact Or.inl ⟨init.1, "Cannot initialize environment\n", h2, h.symm⟩
      · rw [if_neg h2] at h
        have ht2 : ∀ e ∈ (if fl.verbose = true then
            [Event.libuboot_initialize init.1] ++ [Event.libuboot_set_verbose]
            else [Event.libuboot_initialize init.1]), e.isEarly := by
          intro e he
          split_ifs at he
          · simp only [List.singleton_append, List.mem_cons, List.mem_singleton,
              List.not_mem_nil, or_false] at he
            rcases he with he | he
            · subst he
              exact not_lt.1 h2
            · subst he
              trivial
          · simp only [List.mem_singleton] at he
            subst he
            exact not_lt.1 h2
        generalize (if fl.verbose = true then
            [Event.libuboot_initialize init.1] ++ [Event.libuboot_set_verbose]
            else [Event.libuboot_initialize init.1]) = t2 at h ht2
        generalize (if fl.verbose = true then lib.libuboot_set_verbose init.2 else init.2)
          = ctx1 at h
        generalize lib.libuboot_read_config ctx1 (fl.cfgfname.getD "/etc/fw_env.config")
          = cfg at h
        by_cases h3 : cfg.1 < 0
        · rw [if_pos h3] at h
          simp only [Except.error.injEq] at h
          subst h
          exact Or.inr (Or.inl ⟨t2, fl.cfgfname.getD "/etc/fw_env.config", cfg.1,
            (b.line223 (fl.cfgfname.getD "/etc/fw_env.config") cfg.1).text,
            (b.line223 (fl.cfgfname.getD "/etc/fw_env.config") cfg.1).ended.getD cfg.1,
            h3, ht2, by simp⟩)
        · rw [if_neg h3] at h
          have hpre : ∀ e ∈ t2 ++
              [Event.libuboot_read_config (fl.cfgfname.getD "/etc/fw_env.config") cfg.1],
              e.isEarly := by
            intro e he
            rcases List.mem_append.1 he with he | he
            · exact ht2 e he
            · simp only [List.mem_singleton] at he
              subst he
              exact not_lt.1 h3
          generalize lib.libuboot_open cfg.2 = op at h
          by_cases h4 : op.1 < 0
          · rw [if_pos h4] at h
            generalize lib.libuboot_load_file op.2
              (fl.defenvfile.getD "/etc/u-boot-initial-env") = ld at h
            by_cases h5 : ld.1 < 0
            · rw [if_pos h5] at h
              simp only [Except.error.injEq] at h
              subst h
              exact Or.inr (Or.inr ⟨_, op.1,
                " Error: Cannot read environment, using default. Err= " ++ toString op.1 ++ "\n",
                ld.1,
                " Error: Cannot read default environment from file. Err= " ++
                  toString ld.1 ++ "\n",
                h4, h5, hpre, by simp⟩)
            · simp [h5] at h
          · simp [h4] at h

/-! ## The two branches of main -/

theorem isEarly_isSetup (e : Event) (h : e.isEarly) : e.isSetup = true := by
  cases e <;> simp [Event.isEarly] at h <;> rfl

theorem startup_mode {σ : Type} (lib : LibUboot σ) (b : Build) (inv : Invocation)
    (su : Started σ) (h : startup lib b inv = Except.ok su) :
    (su.is_setenv = true ↔ progname_of inv.argv0 = PROGRAM_SET) ∧
    (su.noheader = true ↔ Opt.n ∈ inv.opts) ∧
    (su.scriptfile = none ↔ ∀ a, Opt.s a ∉ inv.opts) ∧
    (∀ e ∈ su.trace, e.isSetup = true) ∧
    0 ≤ su.ret := by
  obtain ⟨fl, pre, hfl, _, hset, hno, hsc, hret, hpre, hshape⟩ := startup_ok_shape lib b inv su h
  obtain ⟨hf1, hf2⟩ := parse_options_flags _ _ _ _ _ _ hfl
  refine ⟨by simp [hset], ?_, ?_, ?_, hret⟩
  · rw [hno, hf1]
    simp [Flags.initial]
  · rw [hsc, hf2]
    simp [Flags.initial]
  · intro e he
    rcases hshape with ⟨_, ht⟩ | ⟨_, r0, msg, _, ht⟩
    · rw [ht] at he
      rcases List.mem_append.1 he with he | he
      · exact isEarly_isSetup e (hpre e he)
      · simp only [List.mem_singleton] at he
        subst he
        rfl
    · rw [ht] at he
      rcases List.mem_append.1 he with he | he
      · exact isEarly_isSetup e (hpre e he)
      · simp only [List.mem_cons, List.mem_singleton, List.not_mem_nil, or_false] at he
        rcases he with he | he | he <;> subst he <;> rfl

theorem print_vars_events {σ : Type} (lib : LibUboot σ) (ctx : σ) (noheader : Bool)
    (args : List String) :
    (∀ e ∈ print_vars lib ctx noheader args, e.isPrint = true) ∧
    (print_vars lib ctx noheader args).filterMap Event.stdoutText =
      args.map (fun a => print_line noheader a (lib.libuboot_get_env ctx a)) := by
  induction args with
  | nil => simp [print_vars]
  | cons a rest ih =>
    obtain ⟨ih1, ih2⟩ := ih
    constructor
    · intro e he
      simp only [print_vars, List.mem_cons] at he
      rcases he with he | he | he
      · subst he; rfl
      · subst he; rfl
      · exact ih1 e he
    · simp [print_vars, Event.stdoutText, ih2]

theorem run_body_cases {σ : Type} (lib : LibUboot σ) (su : Started σ) (args : List String) :
    (su.is_setenv = false ∧ ∃ evs,
      run_body lib su args =
        ⟨su.trace ++ evs ++ [Event.libuboot_close, Event.libuboot_exit], su.ret⟩ ∧
      ∀ e ∈ evs, e.isPrint = true) ∨
    (su.is_setenv = true ∧ su.scriptfile = none ∧ ∃ evs n v r msg, r ≠ 0 ∧
      run_body lib su args =
        ⟨su.trace ++ evs ++ [Event.libuboot_set_env n v r, Event.stderr msg], -r⟩ ∧
      ∀ e ∈ evs, (∃ n v, e = Event.libuboot_get_env n v) ∨
        (∃ n v, e = Event.libuboot_set_env n v 0)) ∨
    (su.is_setenv = true ∧ ∃ evs r errs,
      run_body lib su args =
        ⟨su.trace ++ evs ++ Event.libuboot_env_store r :: errs ++
          [Event.libuboot_close, Event.libuboot_exit], r⟩ ∧
      (∀ e ∈ evs, (∃ n v, e = Event.libuboot_get_env n v) ∨
        (∃ n v, e = Event.libuboot_set_env n v 0) ∨ (∃ f r1, e = Event.libuboot_load_file f r1)) ∧
      (∀ e ∈ errs, ∃ t, e = Event.stderr t) ∧
      (su.scriptfile ≠ none ∨ su.default_used = true ∨
        ∃ n v, Event.libuboot_set_env n v 0 ∈ evs)) ∨
    (su.is_setenv = true ∧ su.scriptfile = none ∧ su.default_used = false ∧ ∃ evs,
      run_body lib su args =
        ⟨su.trace ++ evs ++ [Event.libuboot_close, Event.libuboot_exit], su.ret⟩ ∧
      ∀ e ∈ evs, ∃ n v, e = Event.libuboot_get_env n v) := by
  cases hmode : su.is_setenv with
  | false =>
    left
    refine ⟨rfl, ?_⟩
    by_cases hargs : args.length = 0
    · refine ⟨print_all (lib.libuboot_iterator su.ctx), by simp [run_body, hmode, hargs, finish], ?_⟩
      intro e he
      simp only [print_all, List.mem_map] at he
      obtain ⟨p, _, hp⟩ := he
      subst hp
      rfl
    · exact ⟨print_vars lib su.ctx su.noheader args,
        by simp [run_body, hmode, hargs, finish],
        (print_vars_events lib su.ctx su.noheader args).1⟩
  | true =>
    right
    cases hscript : su.scriptfile with
    | some f =>
      right; left
      refine ⟨rfl, [Event.libuboot_load_file f (lib.libuboot_load_file su.ctx f).1],
        (lib.libuboot_env_store (lib.libuboot_load_file su.ctx f).2).1,
        (if (lib.libuboot_env_store (lib.libuboot_load_file su.ctx f).2).1 ≠ 0 then
          [Event.stderr "Error storing the env\n"] else []), ?_, ?_, ?_, ?_⟩
      · simp only [run_body, hmode, hscript, store_and_finish, finish, Bool.not_true,
          Bool.false_eq_true, if_false, Bool.true_or, if_true]
        split_ifs <;> simp
      · intro e he
        simp only [List.mem_singleton] at he
        exact Or.inr (Or.inr ⟨_, _, he⟩)
      · intro e he
        split_ifs at he
        · simp only [List.mem_singleton] at he
          exact ⟨_, he⟩
        · simp at he
      · exact Or.inl (by simp)
    | none =>
      have hbody : run_body lib su args =
          setenv_finish lib su (setenv_loop lib args ⟨su.ctx, false, su.trace⟩) := by
        simp [run_body, hmode, hscript]
      cases hloop : setenv_loop lib args ⟨su.ctx, false, su.trace⟩ with
      | error out =>
        left
        obtain ⟨evs, n, v, r, msg, ht, hr, hs, hk⟩ := setenv_loop_error lib args _ out hloop
        refine ⟨rfl, rfl, evs, n, v, r, msg, hr, ?_, hk⟩
        rw [hbody, hloop]
        simp only [setenv_finish]
        cases out with
        | mk tr stt =>
          simp only at ht hs
          rw [ht, hs]
      | ok st =>
        right
        obtain ⟨evs, ht, hk, hn⟩ := setenv_loop_ok lib args _ st hloop
        simp only [Bool.false_eq_true, false_or] at hn
        by_cases hst : (st.need_store || su.default_used) = true
        · left
          refine ⟨rfl, evs, (lib.libuboot_env_store st.ctx).1,
            (if (lib.libuboot_env_store st.ctx).1 ≠ 0 then
              [Event.stderr "Error storing the env\n"] else []), ?_, ?_, ?_, ?_⟩
          · rw [hbody, hloop]
            simp only [setenv_finish, store_and_finish, hst, if_true, finish, ht]
            split_ifs <;> simp
          · intro e he
            rcases hk e he with h1 | h1
            · exact Or.inl h1
            · exact Or.inr (Or.inl h1)
          · intro e he
            split_ifs at he
            · simp only [List.mem_singleton] at he
              exact ⟨_, he⟩
            · simp at he
          · simp only [Bool.or_eq_true] at hst
            rcases hst with h1 | h1
            · exact Or.inr (Or.inr (hn.1 h1))
            · exact Or.inr (Or.inl h1)
        · right
          simp only [Bool.or_eq_true, not_or, Bool.not_eq_true] at hst
          refine ⟨rfl, rfl, hst.2, evs, ?_, ?_⟩
          · rw [hbody, hloop]
            simp [setenv_finish, store_and_finish, hst.1, hst.2, finish, ht]
          · intro e he
            rcases hk e he with h1 | ⟨n, v, h1⟩
            · exact h1
            · exfalso
              subst h1
              have hns := hn.2 ⟨n, v, he⟩
              rw [hst.1] at hns
              exact Bool.noConfusion hns

/-! ## Runs of main -/

theorem main_of_startup_ok {σ : Type} (lib : LibUboot σ) (b : Build) (inv : Invocation)
    (su : Started σ) (h : startup lib b inv = Except.ok su) :
    main lib b inv = run_body lib su inv.args := by
  simp [main, h]

theorem main_of_startup_error {σ : Type} (lib : LibUboot σ) (b : Build) (inv : Invocation)
    (out : Outcome) (h : startup lib b inv = Except.error out) :
    main lib b inv = out := by
  simp [main, h]

theorem stdout_of_setup (l : List Event) (h : ∀ e ∈ l, e.isSetup = true) :
    l.filterMap Event.stdoutText = [] := by
  induction l with
  | nil => rfl
  | cons e l ih =>
    have he := h e (List.mem_cons_self _ _)
    have hl := ih (fun x hx => h x (List.mem_cons_of_mem _ hx))
    cases e <;> simp [Event.isSetup] at he <;> simp [Event.stdoutText, hl]

/-- C7: in read mode with `n ≥ 1` variable arguments `main` writes exactly `n` lines to
stdout, in the order of the arguments: `<value>` with `--no-header` and
`<argv[i]>=<value>` without, where `<value>` is what `libuboot_get_env(argv[i])` gives,
or the empty string when the variable is absent; it calls neither `libuboot_set_env`
nor `libuboot_env_store`.  `su` holds the locals of `main` once the environment is
open. -/
theorem printenv_prints_requested {σ : Type} (lib : LibUboot σ) (b : Build)
    (inv : Invocation) (su : Started σ) (hsu : startup lib b inv = Except.ok su)
    (hread : progname_of inv.argv0 ≠ PROGRAM_SET) (hargs : inv.args ≠ []) :
    (main lib b inv).trace.filterMap Event.stdoutText =
      inv.args.map (fun a =>
        if Opt.n ∈ inv.opts then (lib.libuboot_get_env su.ctx a).getD "" ++ "\n"
        else a ++ "=" ++ (lib.libuboot_get_env su.ctx a).getD "" ++ "\n") ∧
    ((main lib b inv).trace.filterMap Event.stdoutText).length = inv.args.length ∧
    (∀ n v r, Event.libuboot_set_env n v r ∉ (main lib b inv).trace) ∧
    (∀ r, Event.libuboot_env_store r ∉ (main lib b inv).trace) := by
  obtain ⟨hmode, hno, _, hsetup, _⟩ := startup_mode lib b inv su hsu
  have hfalse : su.is_setenv = false := by
    cases hs : su.is_setenv with
    | false => rfl
    | true => exact absurd (hmode.1 hs) hread
  have hlen : ¬ inv.args.length = 0 := by
    intro h0
    exact hargs (List.length_eq_zero.1 h0)
  obtain ⟨hkind, hout⟩ := print_vars_events lib su.ctx su.noheader inv.args
  have htrace : (main lib b inv).trace =
      su.trace ++ print_vars lib su.ctx su.noheader inv.args ++
        [Event.libuboot_close, Event.libuboot_exit] := by
    rw [main_of_startup_ok lib b inv su hsu]
    simp [run_body, hfalse, hlen, finish]
  have hlines : (main lib b inv).trace.filterMap Event.stdoutText =
      inv.args.map (fun a =>
        if Opt.n ∈ inv.opts then (lib.libuboot_get_env su.ctx a).getD "" ++ "\n"
        else a ++ "=" ++ (lib.libuboot_get_env su.ctx a).getD "" ++ "\n") := by
    rw [htrace, List.filterMap_append, List.filterMap_append, stdout_of_setup su.trace hsetup,
      hout]
    simp only [List.nil_append, List.filterMap_cons, Event.stdoutText, List.filterMap_nil,
      List.append_nil]
    apply List.map_congr_left
    intro a _
    by_cases hn : Opt.n ∈ inv.opts
    · simp [print_line, hn, hno.2 hn]
    · have hnh : su.noheader = false := by
        cases hs : su.noheader with
        | false => rfl
        | true => exact absurd (hno.1 hs) hn
      simp [print_line, hn, hnh]
  refine ⟨hlines, by rw [hlines, List.length_map], ?_, ?_⟩
  · intro n v r hmem
    rw [htrace] at hmem
    simp only [List.mem_append, List.mem_cons, List.mem_singleton, List.not_mem_nil,
      or_false] at hmem
    rcases hmem with (hmem | hmem) | hmem
    · exact Bool.noConfusion (hsetup _ hmem)
    · exact Bool.noConfusion (hkind _ hmem)
    · rcases hmem with hmem | hmem <;> cases hmem
  · intro r hmem
    rw [htrace] at hmem
    simp only [List.mem_append, List.mem_cons, List.mem_singleton, List.not_mem_nil,
      or_false] at hmem
    rcases hmem with (hmem | hmem) | hmem
    · exact Bool.noConfusion (hsetup _ hmem)
    · exact Bool.noConfusion (hkind _ hmem)
    · rcases hmem with hmem | hmem <;> cases hmem

/-- Witness for C7: `fw_printenv foo missing` and `fw_printenv -n foo missing` on a
device that holds `foo=bar`. -/
theorem printenv_prints_requested_witness :
    (main (simLib simValid) build0 ⟨"fw_printenv", [], ["foo", "missing"], 0⟩).trace.filterMap
        Event.stdoutText = ["foo=bar\n", "missing=\n"] ∧
    (main (simLib simValid) build0
        ⟨"/sbin/fw_printenv", [Opt.n], ["foo", "missing"], 0⟩).trace.filterMap
        Event.stdoutText = ["bar\n", "\n"] :=
  ⟨(printenv_prints_requested (simLib simValid) build0
      ⟨"fw_printenv", [], ["foo", "missing"], 0⟩
      ⟨false, false, none, false, 0, simValid,
        [Event.libuboot_initialize 0, Event.libuboot_read_config "/etc/fw_env.config" 0,
          Event.libuboot_open 0]⟩
      rfl (by decide) (by decide)).1.trans (by decide),
   (printenv_prints_requested (simLib simValid) build0
      ⟨"/sbin/fw_printenv", [Opt.n], ["foo", "missing"], 0⟩
      ⟨false, true, none, false, 0, simValid,
        [Event.libuboot_initialize 0, Event.libuboot_read_config "/etc/fw_env.config" 0,
          Event.libuboot_open 0]⟩
      rfl (by decide) (by decide)).1.trans (by decide)⟩

/-- C1, counterexample: `fw_setenv -s same.txt` on a device whose stored copy is valid
and holds `foo=bar`, with a script that assigns `foo=bar` again.  The environment is
opened without the default file, loading the script leaves the context as it was, no
`libuboot_set_env` call is made, and still `libuboot_env_store` is called. -/
theorem store_after_script_without_change :
    progname_of "fw_setenv" = PROGRAM_SET ∧
    startup (simLib simValid) build0 ⟨"fw_setenv", [Opt.s "same.txt"], [], 0⟩ =
      Except.ok ⟨true, false, some "same.txt", false, 0, simValid,
        [Event.libuboot_initialize 0, Event.libuboot_read_config "/etc/fw_env.config" 0,
          Event.libuboot_open 0]⟩ ∧
    (simLib simValid).libuboot_load_file simValid "same.txt" = (0, simValid) ∧
    main (simLib simValid) build0 ⟨"fw_setenv", [Opt.s "same.txt"], [], 0⟩ =
      ⟨[Event.libuboot_initialize 0, Event.libuboot_read_config "/etc/fw_env.config" 0,
        Event.libuboot_open 0, Event.libuboot_load_file "same.txt" 0,
        Event.libuboot_env_store 0, Event.libuboot_close, Event.libuboot_exit], 0⟩ := by
  refine ⟨by decide, rfl, by decide, by decide⟩

/-- C1, amended: in write mode without `-s`, `libuboot_env_store` is called only if a
`libuboot_set_env` call was made (and returned 0) or the default environment file was
used to build the table (`default_used`).  With `-s` the store is always called once the
script has been loaded, whether or not the script changed anything: the file of the
last `-s` option is loaded in the context reached at line 239, whatever that load
returns the store follows it at once on the context the load leaves, nothing was stored
before and nothing is stored after, and the run ends through `libuboot_close`. -/
theorem store_needs_change_default_or_script {σ : Type} (lib : LibUboot σ) (b : Build)
    (inv : Invocation) (su : Started σ) (hsu : startup lib b inv = Except.ok su)
    (hset : progname_of inv.argv0 = PROGRAM_SET) :
    ((∀ a, Opt.s a ∉ inv.opts) →
      (∃ r, Event.libuboot_env_store r ∈ (main lib b inv).trace) →
      (∃ n v, Event.libuboot_set_env n v 0 ∈ (main lib b inv).trace) ∨
        su.default_used = true) ∧
    ((∃ a, Opt.s a ∈ inv.opts) →
      ∃ before f after tail,
        inv.opts = before ++ Opt.s f :: after ∧ (∀ a, Opt.s a ∉ after) ∧
        (main lib b inv).trace =
          su.trace ++
            Event.libuboot_load_file f (lib.libuboot_load_file su.ctx f).1 ::
            Event.libuboot_env_store
              (lib.libuboot_env_store (lib.libuboot_load_file su.ctx f).2).1 :: tail ∧
        (∀ r, Event.libuboot_env_store r ∉ su.trace) ∧
        (∀ r, Event.libuboot_env_store r ∉ tail) ∧
        (∀ g r, Event.libuboot_load_file g r ∉ tail) ∧
        Event.libuboot_close ∈ tail) := by
  obtain ⟨hmode, _, hscr, hsetup, _⟩ := startup_mode lib b inv su hsu
  have htrue : su.is_setenv = true := hmode.2 hset
  rw [main_of_startup_ok lib b inv su hsu]
  constructor
  · intro hnos hstore
    have hnone : su.scriptfile = none := hscr.2 hnos
    obtain ⟨r, hr⟩ := hstore
    rcases run_body_cases lib su inv.args with
      ⟨hm, _⟩ | ⟨_, _, evs, n, v, r1, msg, _, hrun, hk⟩ |
      ⟨_, evs, r1, errs, hrun, hk, _, hwhy⟩ | ⟨_, _, _, evs, hrun, hk⟩
    · rw [htrue] at hm
      exact Bool.noConfusion hm
    · exfalso
      rw [hrun] at hr
      simp only [List.mem_append, List.mem_cons, List.mem_singleton, List.not_mem_nil,
        or_false] at hr
      rcases hr with (hr | hr) | hr
      · exact Bool.noConfusion (hsetup _ hr)
      · rcases hk _ hr with ⟨_, _, h1⟩ | ⟨_, _, h1⟩ <;> cases h1
      · rcases hr with hr | hr <;> cases hr
    · rcases hwhy with h1 | h1 | ⟨n, v, h1⟩
      · exact absurd hnone h1
      · exact Or.inr h1
      · left
        refine ⟨n, v, ?_⟩
        rw [hrun]
        simp only [List.mem_append]
        exact Or.inl (Or.inl (Or.inr h1))
    · exfalso
      rw [hrun] at hr
      simp only [List.mem_append, List.mem_cons, List.mem_singleton, List.not_mem_nil,
        or_false] at hr
      rcases hr with (hr | hr) | hr
      · exact Bool.noConfusion (hsetup _ hr)
      · obtain ⟨_, _, h1⟩ := hk _ hr
        cases h1
      · rcases hr with hr | hr <;> cases hr
  · rintro ⟨a, ha⟩
    have hsome : su.scriptfile ≠ none := fun hn => hscr.1 hn a ha
    cases hsc : su.scriptfile with
    | none => exact absurd hsc hsome
    | some f =>
      obtain ⟨fl, _, hfl, _, _, _, hscf, _, _, _⟩ := startup_ok_shape lib b inv su hsu
      have hlast : ∃ before after, inv.opts = before ++ Opt.s f :: after ∧
          ∀ a, Opt.s a ∉ after := by
        rcases parse_options_script _ _ _ _ _ _ f hfl (by rw [← hscf, hsc]) with
          ⟨h1, _⟩ | h1
        · simp [Flags.initial] at h1
        · exact h1
      obtain ⟨before, after, hopts, hafter⟩ := hlast
      refine ⟨before, f, after,
        (if (lib.libuboot_env_store (lib.libuboot_load_file su.ctx f).2).1 ≠ 0 then
          [Event.stderr "Error storing the env\n"] else []) ++
          [Event.libuboot_close, Event.libuboot_exit],
        hopts, hafter, ?_, ?_, ?_, ?_, by simp⟩
      · simp only [run_body, htrue, hsc, store_and_finish, finish, Bool.not_true,
          Bool.false_eq_true, if_false, Bool.true_or, if_true]
        split_ifs <;> simp
      · intro r hmem
        exact Bool.noConfusion (hsetup _ hmem)
      · intro r hmem
        split_ifs at hmem <;> simp at hmem
      · intro g r hmem
        split_ifs at hmem <;> simp at hmem

/-- Witness for C1: `fw_setenv foo baz` on the device that holds `foo=bar`, without `-s`,
where the store follows a `libuboot_set_env` call that returned 0; and
`fw_setenv -s same.txt`, where the store follows the load of `same.txt` at once. -/
theorem store_needs_change_default_or_script_witness :
    (∃ r, Event.libuboot_env_store r ∈
      (main (simLib simValid) build0 ⟨"fw_setenv", [], ["foo", "baz"], 0⟩).trace) ∧
    (∃ n v, Event.libuboot_set_env n v 0 ∈
      (main (simLib simValid) build0 ⟨"fw_setenv", [], ["foo", "baz"], 0⟩).trace) ∧
    (∃ tail, (main (simLib simValid) build0 ⟨"fw_setenv", [Opt.s "same.txt"], [], 0⟩).trace =
        [Event.libuboot_initialize 0, Event.libuboot_read_config "/etc/fw_env.config" 0,
          Event.libuboot_open 0] ++
          Event.libuboot_load_file "same.txt" 0 :: Event.libuboot_env_store 0 :: tail ∧
      (∀ r, Event.libuboot_env_store r ∉ tail) ∧ Event.libuboot_close ∈ tail) :=
  ⟨⟨0, by decide⟩,
   ((store_needs_change_default_or_script (simLib simValid) build0
      ⟨"fw_setenv", [], ["foo", "baz"], 0⟩
      ⟨true, false, none, false, 0, simValid,
        [Event.libuboot_initialize 0, Event.libuboot_read_config "/etc/fw_env.config" 0,
          Event.libuboot_open 0]⟩
      rfl (by decide)).1 (by intro a h; cases h) ⟨0, by decide⟩).resolve_right (by decide),
   by
    obtain ⟨before, f, after, tail, hopts, _, htr, _, hnot, _, hclose⟩ :=
      (store_needs_change_default_or_script (simLib simValid) build0
        ⟨"fw_setenv", [Opt.s "same.txt"], [], 0⟩
        ⟨true, false, some "same.txt", false, 0, simValid,
          [Event.libuboot_initialize 0, Event.libuboot_read_config "/etc/fw_env.config" 0,
            Event.libuboot_open 0]⟩
        rfl (by decide)).2 ⟨"same.txt", by simp⟩
    have hf : f = "same.txt" := by
      cases before with
      | nil =>
        simp only [List.nil_append, List.cons.injEq, Opt.s.injEq] at hopts
        exact hopts.1.symm
      | cons o before =>
        simp at hopts
    subst hf
    exact ⟨tail, htr, hnot, hclose⟩⟩

/-- C2, counterexample: `fw_printenv` on a device whose `libuboot_open` fails and whose
default environment file loads.  `default_used` is set, the run ends through
`libuboot_close`, and `libuboot_env_store` is never called. -/
theorem default_used_without_store_in_read_mode :
    startup (simLib simIoError) build0 ⟨"fw_printenv", [], [], 0⟩ =
      Except.ok ⟨false, false, none, true, 0,
        { simIoError with table := [("netdev", "eth0"), ("kernel_addr", "400000")] },
        [Event.libuboot_initialize 0, Event.libuboot_read_config "/etc/fw_env.config" 0,
          Event.libuboot_open (-5),
          Event.stderr " Error: Cannot read environment, using default. Err= -5\n",
          Event.libuboot_load_file "/etc/u-boot-initial-env" 0]⟩ ∧
    main (simLib simIoError) build0 ⟨"fw_printenv", [], [], 0⟩ =
      ⟨[Event.libuboot_initialize 0, Event.libuboot_read_config "/etc/fw_env.config" 0,
        Event.libuboot_open (-5),
        Event.stderr " Error: Cannot read environment, using default. Err= -5\n",
        Event.libuboot_load_file "/etc/u-boot-initial-env" 0,
        Event.stdout "netdev=eth0\n", Event.stdout "kernel_addr=400000\n",
        Event.libuboot_close, Event.libuboot_exit], 0⟩ ∧
    ¬ ∃ r, Event.libuboot_env_store r ∈
      (main (simLib simIoError) build0 ⟨"fw_printenv", [], [], 0⟩).trace := by
  refine ⟨rfl, by decide, ?_⟩
  rintro ⟨r, hr⟩
  have hmain : main (simLib simIoError) build0 ⟨"fw_printenv", [], [], 0⟩ =
      ⟨[Event.libuboot_initialize 0, Event.libuboot_read_config "/etc/fw_env.config" 0,
        Event.libuboot_open (-5),
        Event.stderr " Error: Cannot read environment, using default. Err= -5\n",
        Event.libuboot_load_file "/etc/u-boot-initial-env" 0,
        Event.stdout "netdev=eth0\n", Event.stdout "kernel_addr=400000\n",
        Event.libuboot_close, Event.libuboot_exit], 0⟩ := by decide
  rw [hmain] at hr
  simp at hr

/-- C2, amended: in write mode, when `libuboot_open` fails and the default environment
file is loaded (`default_used = true`), and no `libuboot_set_env` call fails (a failing
one ends the run at once), `libuboot_env_store` is called before `libuboot_close`,
once, also when no variable was changed; this holds for every argument list.  In read
mode the store is never called. -/
theorem default_used_forces_store_in_write_mode {σ : Type} (lib : LibUboot σ) (b : Build)
    (inv : Invocation) (su : Started σ) (hsu : startup lib b inv = Except.ok su)
    (hdef : su.default_used = true) :
    (progname_of inv.argv0 = PROGRAM_SET →
      (∀ n v r, Event.libuboot_set_env n v r ∈ (main lib b inv).trace → r = 0) →
      ∃ pre r post, (main lib b inv).trace = pre ++ Event.libuboot_env_store r :: post ∧
        Event.libuboot_close ∈ post ∧ Event.libuboot_close ∉ pre ∧
        (∀ r1, Event.libuboot_env_store r1 ∉ pre) ∧
        (∀ r1, Event.libuboot_env_store r1 ∉ post) ∧
        (∃ r0, r0 < 0 ∧ Event.libuboot_open r0 ∈ pre)) ∧
    (progname_of inv.argv0 ≠ PROGRAM_SET →
      ∀ r, Event.libuboot_env_store r ∉ (main lib b inv).trace) := by
  obtain ⟨hmode, _, _, hsetup, _⟩ := startup_mode lib b inv su hsu
  obtain ⟨fl, pre0, _, _, _, _, _, _, _, hshape⟩ := startup_ok_shape lib b inv su hsu
  rw [main_of_startup_ok lib b inv su hsu]
  constructor
  · intro hset hok
    have htrue : su.is_setenv = true := hmode.2 hset
    rcases run_body_cases lib su inv.args with
      ⟨hm, _⟩ | ⟨_, _, evs, n, v, r1, msg, hr1, hrun, hk⟩ |
      ⟨_, evs, r1, errs, hrun, hk, herr, _⟩ | ⟨_, _, hnd, _⟩
    · rw [htrue] at hm
      exact Bool.noConfusion hm
    · exfalso
      apply hr1
      apply hok n v r1
      rw [hrun]
      simp
    · refine ⟨su.trace ++ evs, r1, errs ++ [Event.libuboot_close, Event.libuboot_exit],
        by rw [hrun]; simp, by simp, ?_, ?_, ?_, ?_⟩
      · intro hmem
        rcases List.mem_append.1 hmem with hmem | hmem
        · exact Bool.noConfusion (hsetup _ hmem)
        · rcases hk _ hmem with ⟨_, _, h1⟩ | ⟨_, _, h1⟩ | ⟨_, _, h1⟩ <;> cases h1
      · intro r2 hmem
        rcases List.mem_append.1 hmem with hmem | hmem
        · exact Bool.noConfusion (hsetup _ hmem)
        · rcases hk _ hmem with ⟨_, _, h1⟩ | ⟨_, _, h1⟩ | ⟨_, _, h1⟩ <;> cases h1
      · intro r2 hmem
        rcases List.mem_append.1 hmem with hmem | hmem
        · obtain ⟨_, h1⟩ := herr _ hmem
          cases h1
        · simp at hmem
      · rcases hshape with ⟨hno, _⟩ | ⟨_, r0, msg0, hr0, ht⟩
        · rw [hdef] at hno
          exact Bool.noConfusion hno
        · refine ⟨r0, hr0, ?_⟩
          rw [ht]
          simp
    · rw [hdef] at hnd
      exact Bool.noConfusion hnd
  · intro hread r hmem
    have hfalse : su.is_setenv = false := by
      cases hs : su.is_setenv with
      | false => rfl
      | true => exact absurd (hmode.1 hs) hread
    rcases run_body_cases lib su inv.args with
      ⟨_, evs, hrun, hk⟩ | ⟨hm, _⟩ | ⟨hm, _⟩ | ⟨hm, _⟩
    · rw [hrun] at hmem
      simp only [List.mem_append, List.mem_cons, List.mem_singleton, List.not_mem_nil,
        or_false] at hmem
      rcases hmem with (hmem | hmem) | hmem
      · exact Bool.noConfusion (hsetup _ hmem)
      · exact Bool.noConfusion (hk _ hmem)
      · rcases hmem with hmem | hmem <;> cases hmem
    · rw [hfalse] at hm
      exact Bool.noConfusion hm
    · rw [hfalse] at hm
      exact Bool.noConfusion hm
    · rw [hfalse] at hm
      exact Bool.noConfusion hm

/-- Witness for C2: `fw_setenv` without arguments on the device whose `libuboot_open`
fails; the table built from the default file is stored before the close. -/
theorem default_used_forces_store_in_write_mode_witness :
    ∃ pre r post,
      (main (simLib simIoError) build0 ⟨"fw_setenv", [], [], 0⟩).trace =
        pre ++ Event.libuboot_env_store r :: post ∧
      Event.libuboot_close ∈ post ∧ Event.libuboot_close ∉ pre ∧
      (∀ r1, Event.libuboot_env_store r1 ∉ pre) ∧
      (∀ r1, Event.libuboot_env_store r1 ∉ post) ∧
      (∃ r0, r0 < 0 ∧ Event.libuboot_open r0 ∈ pre) :=
  (default_used_forces_store_in_write_mode (simLib simIoError) build0
    ⟨"fw_setenv", [], [], 0⟩
    ⟨true, false, none, true, 0,
      { simIoError with table := [("netdev", "eth0"), ("kernel_addr", "400000")] },
      [Event.libuboot_initialize 0, Event.libuboot_read_config "/etc/fw_env.config" 0,
        Event.libuboot_open (-5),
        Event.stderr " Error: Cannot read environment, using default. Err= -5\n",
        Event.libuboot_load_file "/etc/u-boot-initial-env" 0]⟩
    rfl rfl).1 (by decide) (by
      intro n v r hmem
      have hmain : main (simLib simIoError) build0 ⟨"fw_setenv", [], [], 0⟩ =
          ⟨[Event.libuboot_initialize 0, Event.libuboot_read_config "/etc/fw_env.config" 0,
            Event.libuboot_open (-5),
            Event.stderr " Error: Cannot read environment, using default. Err= -5\n",
            Event.libuboot_load_file "/etc/u-boot-initial-env" 0,
            Event.libuboot_env_store 0, Event.libuboot_close, Event.libuboot_exit], 0⟩ := by
        decide
      rw [hmain] at hmem
      simp at hmem)

theorem run_body_trace {σ : Type} (lib : LibUboot σ) (su : Started σ) (args : List String) :
    ∃ post, (run_body lib su args).trace = su.trace ++ post ∧ ∀ e ∈ post, e.isBody = true := by
  rcases run_body_cases lib su args with
    ⟨_, evs, hrun, hk⟩ | ⟨_, _, evs, n, v, r1, msg, _, hrun, hk⟩ |
    ⟨_, evs, r1, errs, hrun, hk, herr, _⟩ | ⟨_, _, _, evs, hrun, hk⟩
  · refine ⟨evs ++ [Event.libuboot_close, Event.libuboot_exit], by rw [hrun]; simp, ?_⟩
    intro e he
    rcases List.mem_append.1 he with he | he
    · have hp := hk e he
      cases e <;> simp [Event.isPrint] at hp <;> rfl
    · simp only [List.mem_cons, List.mem_singleton, List.not_mem_nil, or_false] at he
      rcases he with he | he <;> subst he <;> rfl
  · refine ⟨evs ++ [Event.libuboot_set_env n v r1, Event.stderr msg], by rw [hrun]; simp, ?_⟩
    intro e he
    rcases List.mem_append.1 he with he | he
    · rcases hk e he with ⟨_, _, h1⟩ | ⟨_, _, h1⟩ <;> subst h1 <;> rfl
    · simp only [List.mem_cons, List.mem_singleton, List.not_mem_nil, or_false] at he
      rcases he with he | he <;> subst he <;> rfl
  · refine ⟨evs ++ Event.libuboot_env_store r1 :: errs ++
      [Event.libuboot_close, Event.libuboot_exit], by rw [hrun]; simp, ?_⟩
    intro e he
    simp only [List.mem_append, List.mem_cons, List.mem_singleton, List.not_mem_nil,
      or_false] at he
    rcases he with (he | he | he) | he
    · rcases hk e he with ⟨_, _, h1⟩ | ⟨_, _, h1⟩ | ⟨_, _, h1⟩ <;> subst h1 <;> rfl
    · subst he; rfl
    · obtain ⟨_, h1⟩ := herr e he
      subst h1; rfl
    · rcases he with he | he <;> subst he <;> rfl
  · refine ⟨evs ++ [Event.libuboot_close, Event.libuboot_exit], by rw [hrun]; simp, ?_⟩
    intro e he
    rcases List.mem_append.1 he with he | he
    · obtain ⟨_, _, h1⟩ := hk e he
      subst h1; rfl
    · simp only [List.mem_cons, List.mem_singleton, List.not_mem_nil, or_false] at he
      rcases he with he | he <;> subst he <;> rfl

/-- C5, counterexample: `fw_setenv netdev eth0` on a device whose `libuboot_open` fails
with the I/O error `-EIO` (-5).  The run does not abort: it loads the default
environment file, changes nothing (the default already has `netdev=eth0`), stores the
table built from the defaults and ends with status 0. -/
theorem io_error_on_open_is_recovered :
    (simLib simIoError).libuboot_open simIoError = (-5, simIoError) ∧
    main (simLib simIoError) build0 ⟨"/usr/bin/fw_setenv", [], ["netdev", "eth0"], 0⟩ =
      ⟨[Event.libuboot_initialize 0, Event.libuboot_read_config "/etc/fw_env.config" 0,
        Event.libuboot_open (-5),
        Event.stderr " Error: Cannot read environment, using default. Err= -5\n",
        Event.libuboot_load_file "/etc/u-boot-initial-env" 0,
        Event.libuboot_get_env "netdev" (some "eth0"),
        Event.libuboot_env_store 0, Event.libuboot_close, Event.libuboot_exit], 0⟩ := by
  refine ⟨by decide, by decide⟩

/-- C5, amended: when `libuboot_open` fails, with whatever negative code, an I/O error
included, `main` writes a message to stderr and goes on to load the default environment
file.  Only when that load fails too does it abort, with the code of the load as exit
value and without store or close.  When the load succeeds the run goes on with
`default_used = true`, and in write mode, unless a `libuboot_set_env` call fails, the
table built from the defaults is stored. -/
theorem open_failure_falls_back_to_default {σ : Type} (lib : LibUboot σ) (b : Build)
    (inv : Invocation) (r0 : Int)
    (hopen : Event.libuboot_open r0 ∈ (main lib b inv).trace) (hneg : r0 < 0) :
    ∃ pre msg f r1 post,
      (main lib b inv).trace =
        pre ++ [Event.libuboot_open r0, Event.stderr msg, Event.libuboot_load_file f r1] ++
          post ∧
      (∀ e ∈ pre, e.isEarly) ∧
      (r1 < 0 → (main lib b inv).status = r1 ∧
        (∀ r, Event.libuboot_env_store r ∉ (main lib b inv).trace) ∧
        Event.libuboot_close ∉ (main lib b inv).trace) ∧
      (0 ≤ r1 → ∃ su, startup lib b inv = Except.ok su ∧ su.default_used = true ∧
        (progname_of inv.argv0 = PROGRAM_SET →
          (∀ n v r, Event.libuboot_set_env n v r ∈ (main lib b inv).trace → r = 0) →
          ∃ r, Event.libuboot_env_store r ∈ post)) := by
  cases hs : startup lib b inv with
  | error out =>
    rw [main_of_startup_error lib b inv out hs] at hopen ⊢
    rcases startup_error_shape lib b inv out hs with hp | ⟨fl, _, hcase⟩
    · exfalso
      obtain ⟨hk, _⟩ := parse_options_error _ _ _ _ _ _ hp
      obtain ⟨_, h1⟩ := hk _ hopen
      cases h1
    · rcases hcase with ⟨_, hout⟩ | ⟨_, hcase⟩
      · exfalso
        subst hout
        simp at hopen
      · rcases hcase with ⟨r, msg, _, hout⟩ | ⟨pre, f, r, msg, st, _, hpre, hout⟩ |
          ⟨pre, r0', msg0, r1, msg1, _, hr1, hpre, hout⟩
        · exfalso
          subst hout
          simp at hopen
        · exfalso
          subst hout
          simp only [List.mem_append, List.mem_cons, List.mem_singleton, List.not_mem_nil,
            or_false] at hopen
          rcases hopen with h1 | h1 | h1
          · exact hpre _ h1
          · cases h1
          · cases h1
        · subst hout
          have hr : r0 = r0' := by
            simp only [List.mem_append, List.mem_cons, List.mem_singleton, List.not_mem_nil,
              or_false] at hopen
            rcases hopen with h1 | h1 | h1 | h1 | h1
            · exact absurd (hpre _ h1) (by simp [Event.isEarly])
            · cases h1; rfl
            · cases h1
            · cases h1
            · cases h1
          subst hr
          refine ⟨pre, msg0, fl.defenvfile.getD "/etc/u-boot-initial-env", r1,
            [Event.stderr msg1], by simp, hpre, ?_, ?_⟩
          · intro _
            refine ⟨rfl, ?_, ?_⟩
            · intro r hmem
              simp only [List.mem_append, List.mem_cons, List.mem_singleton,
                List.not_mem_nil, or_false] at hmem
              rcases hmem with h1 | h1 | h1 | h1 | h1
              · exact absurd (hpre _ h1) (by simp [Event.isEarly])
              · cases h1
              · cases h1
              · cases h1
              · cases h1
            · intro hmem
              simp only [List.mem_append, List.mem_cons, List.mem_singleton,
                List.not_mem_nil, or_false] at hmem
              rcases hmem with h1 | h1 | h1 | h1 | h1
              · exact absurd (hpre _ h1) (by simp [Event.isEarly])
              · cases h1
              · cases h1
              · cases h1
              · cases h1
          · intro h0
            omega
  | ok su =>
    obtain ⟨hmode, _, _, hsetup, hret⟩ := startup_mode lib b inv su hs
    obtain ⟨fl, pre, _, _, _, _, _, _, hpre, hshape⟩ := startup_ok_shape lib b inv su hs
    obtain ⟨post, hpost, hbody⟩ := run_body_trace lib su inv.args
    rw [main_of_startup_ok lib b inv su hs] at hopen ⊢
    rw [hpost] at hopen
    rcases hshape with ⟨_, ht⟩ | ⟨hdef, r0', msg0, _, ht⟩
    · exfalso
      rw [ht] at hopen
      simp only [List.mem_append, List.mem_singleton] at hopen
      rcases hopen with (h1 | h1) | h1
      · exact hpre _ h1
      · cases h1
        omega
      · exact Bool.noConfusion (hbody _ h1)
    · have hr : r0 = r0' := by
        rw [ht] at hopen
        simp only [List.mem_append, List.mem_cons, List.mem_singleton, List.not_mem_nil,
          or_false] at hopen
        rcases hopen with (h1 | h1 | h1 | h1) | h1
        · exact absurd (hpre _ h1) (by simp [Event.isEarly])
        · cases h1; rfl
        · cases h1
        · cases h1
        · exact Bool.noConfusion (hbody _ h1)
      subst hr
      refine ⟨pre, msg0, fl.defenvfile.getD "/etc/u-boot-initial-env", su.ret, post,
        by rw [hpost, ht], hpre, ?_, ?_⟩
      · intro hlt
        omega
      · intro _
        refine ⟨su, rfl, hdef, ?_⟩
        intro hset hok
        have htrue : su.is_setenv = true := hmode.2 hset
        rcases run_body_cases lib su inv.args with
          ⟨hm, _⟩ | ⟨_, _, evs, n, v, r1, msg, hr1, hrun, hk⟩ |
          ⟨_, evs, r1, errs, hrun, hk, herr, _⟩ | ⟨_, _, hnd, _⟩
        · rw [htrue] at hm
          exact Bool.noConfusion hm
        · exfalso
          apply hr1
          apply hok n v r1
          rw [hrun]
          simp
        · refine ⟨r1, ?_⟩
          have hcancel : post = evs ++ Event.libuboot_env_store r1 :: errs ++
              [Event.libuboot_close, Event.libuboot_exit] := by
            have h2 := hpost
            rw [hrun] at h2
            simp only [List.append_assoc] at h2
            simpa using (List.append_cancel_left h2).symm
          rw [hcancel]
          simp
        · rw [hdef] at hnd
          exact Bool.noConfusion hnd

/-- Witness for C5: the run `fw_setenv netdev eth0` on the device whose `libuboot_open`
fails with -5. -/
theorem open_failure_falls_back_to_default_witness :
    ∃ pre msg f r1 post,
      (main (simLib simIoError) build0
          ⟨"/usr/bin/fw_setenv", [], ["netdev", "eth0"], 0⟩).trace =
        pre ++ [Event.libuboot_open (-5), Event.stderr msg, Event.libuboot_load_file f r1] ++
          post ∧
      (∀ e ∈ pre, e.isEarly) ∧
      (r1 < 0 → (main (simLib simIoError) build0
          ⟨"/usr/bin/fw_setenv", [], ["netdev", "eth0"], 0⟩).status = r1 ∧
        (∀ r, Event.libuboot_env_store r ∉ (main (simLib simIoError) build0
          ⟨"/usr/bin/fw_setenv", [], ["netdev", "eth0"], 0⟩).trace) ∧
        Event.libuboot_close ∉ (main (simLib simIoError) build0
          ⟨"/usr/bin/fw_setenv", [], ["netdev", "eth0"], 0⟩).trace) ∧
      (0 ≤ r1 → ∃ su, startup (simLib simIoError) build0
          ⟨"/usr/bin/fw_setenv", [], ["netdev", "eth0"], 0⟩ = Except.ok su ∧
        su.default_used = true ∧
        (progname_of "/usr/bin/fw_setenv" = PROGRAM_SET →
          (∀ n v r, Event.libuboot_set_env n v r ∈ (main (simLib simIoError) build0
            ⟨"/usr/bin/fw_setenv", [], ["netdev", "eth0"], 0⟩).trace → r = 0) →
          ∃ r, Event.libuboot_env_store r ∈ post)) :=
  open_failure_falls_back_to_default (simLib simIoError) build0
    ⟨"/usr/bin/fw_setenv", [], ["netdev", "eth0"], 0⟩ (-5) (by decide) (by decide)

/-- C6, counterexample: `fw_printenv -V` run by uid 1000 prints the version and ends
with exit value 0, although the process is not run as root; and `fw_printenv` with an
unknown option run by root ends with exit value 1, although no library call was made,
let alone failed. -/
theorem exit_value_decided_by_option_loop :
    main (simLib simValid) build0 ⟨"fw_printenv", [Opt.V], ["foo"], 1000⟩ =
      ⟨[Event.stdout "0.1\n"], 0⟩ ∧
    (main (simLib simValid) build0 ⟨"fw_printenv", [Opt.h], [], 1000⟩).status = 0 ∧
    main (simLib simValid) build0 ⟨"fw_printenv", [Opt.unknown], [], 0⟩ =
      ⟨[Event.stdout " Error: Unknown parameter\n"], 1⟩ := by
  refine ⟨by decide, by decide, by decide⟩

/-- C6, amended: the exit value of `main`, for every mode and argument list.  When the
option loop ends the run (`-V`, `-h` or an unknown option), the exit value is 0 or 1
whoever runs the program, and no library call is made.  When the option loop runs to
its end, the exit value is 1 if the process is not run as root, and it is 0 if the
process is root and every library call of the run returned 0.  In every run in which
`libuboot_env_store` fails, `main` returns the non-zero code of the store.  Nothing is
said about the exit value after a failing `libuboot_read_config`.  The exit value is the
`int` given to `exit` or returned by `main`. -/
theorem main_exit_value {σ : Type} (lib : LibUboot σ) (b : Build) (inv : Invocation) :
    (∀ out, parse_options b (progname_of inv.argv0)
        (decide (progname_of inv.argv0 = PROGRAM_SET)) inv.opts Flags.initial =
          Except.error out →
      main lib b inv = out ∧ ((main lib b inv).status = 0 ∨ (main lib b inv).status = 1) ∧
      ∀ e ∈ (main lib b inv).trace, e.ret = none) ∧
    (∀ fl, parse_options b (progname_of inv.argv0)
        (decide (progname_of inv.argv0 = PROGRAM_SET)) inv.opts Flags.initial = Except.ok fl →
      inv.uid ≠ 0 →
      (main lib b inv).status = 1 ∧ ∀ e ∈ (main lib b inv).trace, e.ret = none) ∧
    (∀ fl, parse_options b (progname_of inv.argv0)
        (decide (progname_of inv.argv0 = PROGRAM_SET)) inv.opts Flags.initial = Except.ok fl →
      inv.uid = 0 → (∀ e ∈ (main lib b inv).trace, ∀ r, e.ret = some r → r = 0) →
      (main lib b inv).status = 0) ∧
    (∀ r, Event.libuboot_env_store r ∈ (main lib b inv).trace → r ≠ 0 →
      (main lib b inv).status = r ∧ (main lib b inv).status ≠ 0) := by
  have hfirst : ∀ out, parse_options b (progname_of inv.argv0)
      (decide (progname_of inv.argv0 = PROGRAM_SET)) inv.opts Flags.initial =
        Except.error out →
      main lib b inv = out ∧ ((main lib b inv).status = 0 ∨ (main lib b inv).status = 1) ∧
      ∀ e ∈ (main lib b inv).trace, e.ret = none := by
    intro out hpe
    have hmain : main lib b inv = out := by
      simp [main, startup, hpe]
    obtain ⟨hk, hst⟩ := parse_options_error _ _ _ _ _ _ hpe
    rw [hmain]
    refine ⟨rfl, hst, ?_⟩
    intro e he
    obtain ⟨_, h1⟩ := hk e he
    subst h1
    rfl
  refine ⟨hfirst, ?_⟩
  cases hs : startup lib b inv with
  | error out =>
    rw [main_of_startup_error lib b inv out hs]
    rcases startup_error_shape lib b inv out hs with hp | ⟨fl1, _, hcase⟩
    · obtain ⟨hk, _⟩ := parse_options_error _ _ _ _ _ _ hp
      refine ⟨?_, ?_, ?_⟩
      · intro fl hfl
        rw [hp] at hfl
        cases hfl
      · intro fl hfl
        rw [hp] at hfl
        cases hfl
      · intro r hmem
        obtain ⟨_, h1⟩ := hk _ hmem
        cases h1
    · rcases hcase with ⟨hu, hout⟩ | ⟨hu, hcase⟩
      · subst hout
        refine ⟨fun _ _ _ => ⟨rfl, ?_⟩, fun _ _ h0 => absurd h0 hu, ?_⟩
        · intro e he
          simp only [List.mem_singleton] at he
          subst he
          rfl
        · intro r hmem
          simp at hmem
      · rcases hcase with ⟨r, msg, hr, hout⟩ | ⟨pre, f, r, msg, st, hr, hpre, hout⟩ |
          ⟨pre, r0, msg0, r1, msg1, hr0, hr1, hpre, hout⟩
        · subst hout
          refine ⟨fun _ _ hne => absurd hu hne, ?_, ?_⟩
          · intro _ _ _ hall
            have h0 := hall (Event.libuboot_initialize r) (by simp) r rfl
            omega
          · intro r2 hmem
            simp at hmem
        · subst hout
          refine ⟨fun _ _ hne => absurd hu hne, ?_, ?_⟩
          · intro _ _ _ hall
            have h0 := hall (Event.libuboot_read_config f r) (by simp) r rfl
            omega
          · intro r2 hmem
            simp only [List.mem_append, List.mem_cons, List.mem_singleton, List.not_mem_nil,
              or_false] at hmem
            rcases hmem with h1 | h1 | h1
            · exact absurd (hpre _ h1) (by simp [Event.isEarly])
            · cases h1
            · cases h1
        · subst hout
          refine ⟨fun _ _ hne => absurd hu hne, ?_, ?_⟩
          · intro _ _ _ hall
            have h0 := hall (Event.libuboot_open r0) (by simp) r0 rfl
            omega
          · intro r2 hmem
            simp only [List.mem_append, List.mem_cons, List.mem_singleton, List.not_mem_nil,
              or_false] at hmem
            rcases hmem with h1 | h1 | h1 | h1 | h1
            · exact absurd (hpre _ h1) (by simp [Event.isEarly])
            · cases h1
            · cases h1
            · cases h1
            · cases h1
  | ok su =>
    obtain ⟨_, _, _, hsetup, _⟩ := startup_mode lib b inv su hs
    obtain ⟨fl1, pre, _, hu, _, _, _, _, hpre, hshape⟩ := startup_ok_shape lib b inv su hs
    rw [main_of_startup_ok lib b inv su hs]
    have hretev : ∃ e ∈ su.trace, e.ret = some su.ret := by
      rcases hshape with ⟨_, ht⟩ | ⟨_, r0, msg0, _, ht⟩
      · exact ⟨Event.libuboot_open su.ret, by rw [ht]; simp, rfl⟩
      · exact ⟨Event.libuboot_load_file (fl1.defenvfile.getD "/etc/u-boot-initial-env") su.ret,
          by rw [ht]; simp, rfl⟩
    refine ⟨fun _ _ hne => absurd hu hne, ?_, ?_⟩
    · intro _ _ _ hall
      obtain ⟨e0, he0, hr0⟩ := hretev
      rcases run_body_cases lib su inv.args with
        ⟨_, evs, hrun, hk⟩ | ⟨_, _, evs, n, v, r1, msg, hr1, hrun, hk⟩ |
        ⟨_, evs, r1, errs, hrun, hk, herr, _⟩ | ⟨_, _, _, evs, hrun, hk⟩
      · rw [hrun] at hall ⊢
        exact hall e0 (by simp [he0]) su.ret hr0
      · exfalso
        rw [hrun] at hall
        exact hr1 (hall (Event.libuboot_set_env n v r1) (by simp) r1 rfl)
      · rw [hrun] at hall ⊢
        exact hall (Event.libuboot_env_store r1) (by simp) r1 rfl
      · rw [hrun] at hall ⊢
        exact hall e0 (by simp [he0]) su.ret hr0
    · intro r hmem hne
      rcases run_body_cases lib su inv.args with
        ⟨_, evs, hrun, hk⟩ | ⟨_, _, evs, n, v, r1, msg, hr1, hrun, hk⟩ |
        ⟨_, evs, r1, errs, hrun, hk, herr, _⟩ | ⟨_, _, _, evs, hrun, hk⟩
      · exfalso
        rw [hrun] at hmem
        simp only [List.mem_append, List.mem_cons, List.mem_singleton, List.not_mem_nil,
          or_false] at hmem
        rcases hmem with (h1 | h1) | h1
        · exact Bool.noConfusion (hsetup _ h1)
        · exact Bool.noConfusion (hk _ h1)
        · rcases h1 with h1 | h1 <;> cases h1
      · exfalso
        rw [hrun] at hmem
        simp only [List.mem_append, List.mem_cons, List.mem_singleton, List.not_mem_nil,
          or_false] at hmem
        rcases hmem with (h1 | h1) | h1
        · exact Bool.noConfusion (hsetup _ h1)
        · rcases hk _ h1 with ⟨_, _, h2⟩ | ⟨_, _, h2⟩ <;> cases h2
        · rcases h1 with h1 | h1 <;> cases h1
      · rw [hrun] at hmem ⊢
        have hr : r = r1 := by
          simp only [List.mem_append, List.mem_cons, List.mem_singleton, List.not_mem_nil,
            or_false] at hmem
          rcases hmem with ((h1 | h1) | h1 | h1) | h1
          · exact Bool.noConfusion (hsetup _ h1)
          · rcases hk _ h1 with ⟨_, _, h2⟩ | ⟨_, _, h2⟩ | ⟨_, _, h2⟩ <;> cases h2
          · cases h1; rfl
          · obtain ⟨_, h2⟩ := herr _ h1
            cases h2
          · rcases h1 with h1 | h1 <;> cases h1
        subst hr
        exact ⟨rfl, hne⟩
      · exfalso
        rw [hrun] at hmem
        simp only [List.mem_append, List.mem_cons, List.mem_singleton, List.not_mem_nil,
          or_false] at hmem
        rcases hmem with (h1 | h1) | h1
        · exact Bool.noConfusion (hsetup _ h1)
        · obtain ⟨_, _, h2⟩ := hk _ h1
          cases h2
        · rcases h1 with h1 | h1 <;> cases h1

/-- Witness for C6: a run ended by `-h` (exit value 0), a run by a user who is not root
(exit value 1), a run in which every library call returns 0 (exit value 0) and a run
whose store fails (exit value -5). -/
theorem main_exit_value_witness :
    ((main (simLib simValid) build0 ⟨"fw_setenv", [Opt.v, Opt.h], ["foo"], 1000⟩).status = 0 ∨
      (main (simLib simValid) build0 ⟨"fw_setenv", [Opt.v, Opt.h], ["foo"], 1000⟩).status = 1) ∧
    (main (simLib simValid) build0 ⟨"fw_printenv", [Opt.n], ["foo"], 1000⟩).status = 1 ∧
    (main (simLib simValid) build0 ⟨"fw_setenv", [], ["foo", "baz"], 0⟩).status = 0 ∧
    ((main (simLib simStoreFails) build0 ⟨"fw_setenv", [], ["foo"], 0⟩).status = -5 ∧
      (main (simLib simStoreFails) build0 ⟨"fw_setenv", [], ["foo"], 0⟩).status ≠ 0) :=
  ⟨((main_exit_value (simLib simValid) build0
      ⟨"fw_setenv", [Opt.v, Opt.h], ["foo"], 1000⟩).1
      ⟨usage build0 "fw_setenv" true, 0⟩ rfl).2.1,
   ((main_exit_value (simLib simValid) build0
      ⟨"fw_printenv", [Opt.n], ["foo"], 1000⟩).2.1
      ⟨none, none, none, true, false⟩ rfl (by decide)).1,
   (main_exit_value (simLib simValid) build0 ⟨"fw_setenv", [], ["foo", "baz"], 0⟩).2.2.1
      Flags.initial rfl rfl (by decide),
   (main_exit_value (simLib simStoreFails) build0
      ⟨"fw_setenv", [], ["foo"], 0⟩).2.2.2 (-5) (by decide) (by decide)⟩

theorem main_setenv_split {σ : Type} (lib : LibUboot σ) (b : Build) (inv : Invocation)
    (su : Started σ) (pre more : List String) (st1 : SetState σ)
    (hsu : startup lib b inv = Except.ok su)
    (hset : progname_of inv.argv0 = PROGRAM_SET) (hnos : ∀ a, Opt.s a ∉ inv.opts)
    (hargs : inv.args = pre ++ more) (heven : pre.length % 2 = 0)
    (hpre : setenv_loop lib pre ⟨su.ctx, false, su.trace⟩ = Except.ok st1) :
    main lib b inv = setenv_finish lib su (setenv_loop lib more st1) := by
  obtain ⟨hmode, _, hscr, _, _⟩ := startup_mode lib b inv su hsu
  have htrue : su.is_setenv = true := hmode.2 hset
  have hnone : su.scriptfile = none := hscr.2 hnos
  rw [main_of_startup_ok lib b inv su hsu, hargs]
  simp only [run_body, htrue, hnone, Bool.not_true, Bool.false_eq_true, if_false]
  rw [setenv_loop_append lib pre more _ heven, hpre]

/-- C3: in write mode without `-s`, for the pair `(argv[i], argv[i+1]) = (name, value)`
at an even index `i` (`pre` holds the `i` arguments before it and `st1` is the state the
loop has reached there), `libuboot_set_env(name, value)` is called if and only if
`libuboot_get_env(name)` at that moment is `NULL` or differs from `value`.  When the
current value is identical no set call is made and the loop goes on with the context
and `need_store` unchanged; when the call is made and returns 0, `need_store` is set. -/
theorem setenv_pair_sets_iff_differs {σ : Type} (lib : LibUboot σ) (b : Build)
    (inv : Invocation) (su : Started σ) (pre rest : List String) (name value : String)
    (st1 : SetState σ) (hsu : startup lib b inv = Except.ok su)
    (hset : progname_of inv.argv0 = PROGRAM_SET) (hnos : ∀ a, Opt.s a ∉ inv.opts)
    (hargs : inv.args = pre ++ name :: value :: rest) (heven : pre.length % 2 = 0)
    (hpre : setenv_loop lib pre ⟨su.ctx, false, su.trace⟩ = Except.ok st1) :
    main lib b inv = setenv_finish lib su
      (match setenv_step lib name (some value) st1 with
        | Except.error out => Except.error out
        | Except.ok st2 => setenv_loop lib rest st2) ∧
    (∃ evs, run_trace (setenv_step lib name (some value) st1) =
        st1.trace ++ Event.libuboot_get_env name (lib.libuboot_get_env st1.ctx name) :: evs ∧
      ((∃ r, Event.libuboot_set_env name (some value) r ∈ evs) ↔
        (lib.libuboot_get_env st1.ctx name = none ∨
          lib.libuboot_get_env st1.ctx name ≠ some value)) ∧
      (∀ n v r, Event.libuboot_set_env n v r ∈ evs → n = name ∧ v = some value ∧
        r = (lib.libuboot_set_env st1.ctx name (some value)).1)) ∧
    (lib.libuboot_get_env st1.ctx name = some value →
      setenv_step lib name (some value) st1 =
        Except.ok ⟨st1.ctx, st1.need_store,
          st1.trace ++ [Event.libuboot_get_env name (some value)]⟩) ∧
    ((lib.libuboot_get_env st1.ctx name = none ∨
        lib.libuboot_get_env st1.ctx name ≠ some value) →
      (lib.libuboot_set_env st1.ctx name (some value)).1 = 0 →
      setenv_step lib name (some value) st1 =
        Except.ok ⟨(lib.libuboot_set_env st1.ctx name (some value)).2, true,
          st1.trace ++ [Event.libuboot_get_env name (lib.libuboot_get_env st1.ctx name),
            Event.libuboot_set_env name (some value) 0]⟩) := by
  refine ⟨?_, ?_, ?_, ?_⟩
  · rw [main_setenv_split lib b inv su pre (name :: value :: rest) st1 hsu hset hnos hargs
      heven hpre]
    simp only [setenv_loop]
  · by_cases hc : lib.libuboot_get_env st1.ctx name = none ∨
        lib.libuboot_get_env st1.ctx name ≠ some value
    · by_cases hr : (lib.libuboot_set_env st1.ctx name (some value)).1 ≠ 0
      · refine ⟨[Event.libuboot_set_env name (some value)
            (lib.libuboot_set_env st1.ctx name (some value)).1,
          Event.stderr ("libuboot_set_env failed: " ++
            toString (lib.libuboot_set_env st1.ctx name (some value)).1 ++ "\n")], ?_, ?_, ?_⟩
        · simp [setenv_step, hc, hr, run_trace]
        · simp [hc]
        · intro n v r hmem
          simp at hmem
          exact hmem
      · refine ⟨[Event.libuboot_set_env name (some value)
            (lib.libuboot_set_env st1.ctx name (some value)).1], ?_, ?_, ?_⟩
        · simp [setenv_step, hc, hr, run_trace]
        · simp [hc]
        · intro n v r hmem
          simp at hmem
          exact hmem
    · refine ⟨[], ?_, ?_, ?_⟩
      · simp [setenv_step, hc, run_trace]
      · simp [hc]
      · intro n v r hmem
        simp at hmem
  · intro hcur
    simp [setenv_step, hcur]
  · intro hc hr
    simp [setenv_step, hc, hr]

/-- Witness for C3: `fw_setenv foo bar foo baz` on the device that holds `foo=bar`; the
first pair is identical and sets nothing, the second pair differs and is set. -/
theorem setenv_pair_sets_iff_differs_witness :
    setenv_step (simLib simValid) "foo" (some "bar")
        ⟨simValid, false, [Event.libuboot_initialize 0,
          Event.libuboot_read_config "/etc/fw_env.config" 0, Event.libuboot_open 0]⟩ =
      Except.ok ⟨simValid, false, [Event.libuboot_initialize 0,
          Event.libuboot_read_config "/etc/fw_env.config" 0, Event.libuboot_open 0] ++
        [Event.libuboot_get_env "foo" (some "bar")]⟩ ∧
    setenv_step (simLib simValid) "foo" (some "baz")
        ⟨simValid, false, [Event.libuboot_initialize 0,
          Event.libuboot_read_config "/etc/fw_env.config" 0, Event.libuboot_open 0,
          Event.libuboot_get_env "foo" (some "bar")]⟩ =
      Except.ok ⟨{ simValid with table := [("foo", "baz")] }, true,
        [Event.libuboot_initialize 0,
          Event.libuboot_read_config "/etc/fw_env.config" 0, Event.libuboot_open 0,
          Event.libuboot_get_env "foo" (some "bar")] ++
        [Event.libuboot_get_env "foo" (some "bar"),
          Event.libuboot_set_env "foo" (some "baz") 0]⟩ :=
  ⟨(setenv_pair_sets_iff_differs (simLib simValid) build0
      ⟨"fw_setenv", [], ["foo", "bar", "foo", "baz"], 0⟩
      ⟨true, false, none, false, 0, simValid, [Event.libuboot_initialize 0,
        Event.libuboot_read_config "/etc/fw_env.config" 0, Event.libuboot_open 0]⟩
      [] ["foo", "baz"] "foo" "bar"
      ⟨simValid, false, [Event.libuboot_initialize 0,
        Event.libuboot_read_config "/etc/fw_env.config" 0, Event.libuboot_open 0]⟩
      rfl (by decide) (by intro a h; cases h) rfl (by decide) rfl).2.2.1 (by decide),
   (setenv_pair_sets_iff_differs (simLib simValid) build0
      ⟨"fw_setenv", [], ["foo", "bar", "foo", "baz"], 0⟩
      ⟨true, false, none, false, 0, simValid, [Event.libuboot_initialize 0,
        Event.libuboot_read_config "/etc/fw_env.config" 0, Event.libuboot_open 0]⟩
      ["foo", "bar"] [] "foo" "baz"
      ⟨simValid, false, [Event.libuboot_initialize 0,
        Event.libuboot_read_config "/etc/fw_env.config" 0, Event.libuboot_open 0,
        Event.libuboot_get_env "foo" (some "bar")]⟩
      rfl (by decide) (by intro a h; cases h) rfl (by decide) rfl).2.2.2
      (by decide) (by decide)⟩

/-- C4: in write mode without `-s`, when the argument list has odd length (`pre` holds
the arguments before the last one, `st1` is the state the loop has reached there), the
last name is a delete request: `libuboot_set_env(name, NULL)` is called exactly when
`libuboot_get_env(name)` finds the variable.  When it is absent no set call is made and
`need_store` stays as it was; if moreover no set call was made before and the default
was not used, the run ends without any call of `libuboot_env_store`. -/
theorem setenv_trailing_name_deletes {σ : Type} (lib : LibUboot σ) (b : Build)
    (inv : Invocation) (su : Started σ) (pre : List String) (name : String)
    (st1 : SetState σ) (hsu : startup lib b inv = Except.ok su)
    (hset : progname_of inv.argv0 = PROGRAM_SET) (hnos : ∀ a, Opt.s a ∉ inv.opts)
    (hargs : inv.args = pre ++ [name]) (heven : pre.length % 2 = 0)
    (hpre : setenv_loop lib pre ⟨su.ctx, false, su.trace⟩ = Except.ok st1) :
    main lib b inv = setenv_finish lib su (setenv_step lib name none st1) ∧
    (∃ evs, run_trace (setenv_step lib name none st1) =
        st1.trace ++ Event.libuboot_get_env name (lib.libuboot_get_env st1.ctx name) :: evs ∧
      ((∃ r, Event.libuboot_set_env name none r ∈ evs) ↔
        lib.libuboot_get_env st1.ctx name ≠ none) ∧
      (∀ n v r, Event.libuboot_set_env n v r ∈ evs → n = name ∧ v = none ∧
        r = (lib.libuboot_set_env st1.ctx name none).1)) ∧
    (lib.libuboot_get_env st1.ctx name = none →
      setenv_step lib name none st1 =
        Except.ok ⟨st1.ctx, st1.need_store, st1.trace ++ [Event.libuboot_get_env name none]⟩) ∧
    (lib.libuboot_get_env st1.ctx name = none →
      (∀ n v r, Event.libuboot_set_env n v r ∉ st1.trace) → su.default_used = false →
      main lib b inv =
        ⟨st1.trace ++ [Event.libuboot_get_env name none, Event.libuboot_close,
          Event.libuboot_exit], su.ret⟩ ∧
      ∀ r, Event.libuboot_env_store r ∉ (main lib b inv).trace) := by
  have hmain : main lib b inv = setenv_finish lib su (setenv_step lib name none st1) := by
    rw [main_setenv_split lib b inv su pre [name] st1 hsu hset hnos hargs heven hpre]
    simp only [setenv_loop]
  refine ⟨hmain, ?_, ?_, ?_⟩
  · by_cases hc : lib.libuboot_get_env st1.ctx name ≠ none
    · by_cases hr : (lib.libuboot_set_env st1.ctx name none).1 ≠ 0
      · refine ⟨[Event.libuboot_set_env name none (lib.libuboot_set_env st1.ctx name none).1,
          Event.stderr ("libuboot_set_env failed: " ++
            toString (lib.libuboot_set_env st1.ctx name none).1 ++ "\n")], ?_, ?_, ?_⟩
        · simp [setenv_step, hc, hr, run_trace]
        · simp [hc]
        · intro n v r hmem
          simp at hmem
          exact hmem
      · refine ⟨[Event.libuboot_set_env name none (lib.libuboot_set_env st1.ctx name none).1],
          ?_, ?_, ?_⟩
        · simp [setenv_step, hc, hr, run_trace]
        · simp [hc]
        · intro n v r hmem
          simp at hmem
          exact hmem
    · refine ⟨[], ?_, ?_, ?_⟩
      · simp [setenv_step, hc, run_trace]
      · simp [hc]
      · intro n v r hmem
        simp at hmem
  · intro hcur
    simp [setenv_step, hcur]
  · intro hcur hnoset hnd
    obtain ⟨_, _, _, hsetup, _⟩ := startup_mode lib b inv su hsu
    obtain ⟨evs, ht, hk, hn⟩ := setenv_loop_ok lib pre _ st1 hpre
    have hns : st1.need_store = false := by
      cases hv : st1.need_store with
      | false => rfl
      | true =>
        exfalso
        rcases hn.1 hv with h1 | ⟨n, v, h1⟩
        · exact Bool.noConfusion h1
        · apply hnoset n v 0
          rw [ht]
          exact List.mem_append.2 (Or.inr h1)
    have hm2 : main lib b inv =
        ⟨st1.trace ++ [Event.libuboot_get_env name none, Event.libuboot_close,
          Event.libuboot_exit], su.ret⟩ := by
      rw [hmain]
      simp [setenv_step, hcur, setenv_finish, store_and_finish, hns, hnd, finish]
    refine ⟨hm2, ?_⟩
    intro r hmem
    rw [hm2, ht] at hmem
    simp only [List.mem_append, List.mem_cons, List.mem_singleton, List.not_mem_nil,
      or_false] at hmem
    rcases hmem with (h1 | h1) | h1
    · exact Bool.noConfusion (hsetup _ h1)
    · rcases hk _ h1 with ⟨_, _, h2⟩ | ⟨_, _, h2⟩ <;> cases h2
    · rcases h1 with h1 | h1 | h1 <;> cases h1

/-- Witness for C4: `fw_setenv missing` on the device that holds `foo=bar`; the name is
absent, nothing is set and nothing is stored. -/
theorem setenv_trailing_name_deletes_witness :
    main (simLib simValid) build0 ⟨"fw_setenv", [], ["missing"], 0⟩ =
      ⟨[Event.libuboot_initialize 0, Event.libuboot_read_config "/etc/fw_env.config" 0,
          Event.libuboot_open 0] ++
        [Event.libuboot_get_env "missing" none, Event.libuboot_close, Event.libuboot_exit],
        0⟩ ∧
    ∀ r, Event.libuboot_env_store r ∉
      (main (simLib simValid) build0 ⟨"fw_setenv", [], ["missing"], 0⟩).trace :=
  (setenv_trailing_name_deletes (simLib simValid) build0
    ⟨"fw_setenv", [], ["missing"], 0⟩
    ⟨true, false, none, false, 0, simValid, [Event.libuboot_initialize 0,
      Event.libuboot_read_config "/etc/fw_env.config" 0, Event.libuboot_open 0]⟩
    [] "missing"
    ⟨simValid, false, [Event.libuboot_initialize 0,
      Event.libuboot_read_config "/etc/fw_env.config" 0, Event.libuboot_open 0]⟩
    rfl (by decide) (by intro a h; cases h) rfl (by decide) rfl).2.2.2 (by decide)
    (by intro n v r h; simp at h) rfl

end FwPrintenv
